import Mathlib

/-!
ATM account terminal (`ATM_core.cpp`).

A shallow embedding of the classes `ATM` and `ATMSystem` of `ATM_core.cpp`
and a verification of the account state machine.

Modelling conventions

* A `double` is the rational number it denotes (`ℚ`); `+∞` and `-∞` are
  `2^1024` and `-2^1024`, which no finite `double` reaches and which compare
  with the finite ones as the infinities do. `+=` and `-=` on `double` are the
  exact sum and difference rounded to the nearest `double`, ties to even
  (`doubleAdd`, `doubleSub`). A NaN has no model: from numbers, no operation
  of the program produces one.
* `int` is a mathematical integer; the one place where the code does `int`
  arithmetic on a stored value (`++pin_attempts_`, `3 - getPinAttempts()`)
  is taken in 32 bit two's complement (`wrapInt`).
* `std::string` is `String`, `std::vector<std::string>` is `List String`,
  `emplace_back` appends at the end.
* The wall clock read by `getCurrentTimestamp` is an input: every operation
  that may write the ledger takes the formatted timestamp `now`.
* What a member function writes to `std::cout` is returned as the list of
  the operands of its `<<` chains (`Out`), so that manipulators and numbers
  are kept as they are written and no stream state has to be modelled.
* Values read from `std::cin` are inputs; an extraction that fails is `none`.
-/

namespace ATMCore

/-! ## Data model -/

/-- One operand of a `std::cout << ...` chain. -/
inductive Out where
  | text (s : String)
  | fixed
  | setprecision (n : Nat)
  | num (x : ℚ)
  | int (n : Int)
  deriving DecidableEq, Repr

/-- The private data members of `class ATM`. -/
structure ATM where
  account_no_ : Int
  name_ : String
  pin_ : Int
  balance_ : ℚ
  mobile_no_ : String
  transaction_history_ : List String
  is_locked_ : Bool
  pin_attempts_ : Int
  deriving DecidableEq, Repr

/-- What a member function leaves behind: its return value, what it printed,
and the object after the call. -/
structure Result (α : Type) where
  ret : α
  out : List Out
  atm : ATM

def MAX_PIN_ATTEMPTS : Int := 3

def MAX_WITHDRAWAL : ℚ := 20000

def LOCKOUT_SECONDS : Int := 30

/-- The value of an `int` expression, 32 bit two's complement. -/
def wrapInt (x : Int) : Int :=
  (x + 2147483648) % 4294967296 - 2147483648

/-! ### `double` arithmetic -/

/-- The power `2 ^ k`, written as a shift. -/
def pow2 (k : Nat) : Nat := 1 <<< k

/-- For `1 ≤ F < 2 ^ 4096` the position of the leading bit of `F`, that is
`⌊log₂ F⌋`, found by bisection; `0` for `F = 0`. -/
def log2Floor (F : Nat) : Nat :=
  [2048, 1024, 512, 256, 128, 64, 32, 16, 8, 4, 2, 1].foldl
    (fun acc i => if pow2 (acc + i) ≤ F then acc + i else acc) 0

/-- Rounding of the magnitude `n / d` to binary64, round to nearest, ties to
even. Argument and result are counted in units of `2 ^ (-1074)`, the smallest
subnormal, so that every finite `double` is a whole number of units: the
result is `m * 2 ^ k`, where `2 ^ k` units is the spacing of the doubles around
`n / d` (`k = 0` in the subnormal range and the first binade) and `m`, at most
`2 ^ 53`, is `n / d` divided by that spacing and rounded to an integer, ties to
the even one. `2 ^ 2098` units, that is `2 ^ 1024`, stands for the overflow
to infinity. -/
def roundMagnitude (n d : Nat) : Nat :=
  let N := n * pow2 1074
  let F := N / d
  if pow2 2098 ≤ F then pow2 2098
  else
    let k := log2Floor F - 52
    let D := pow2 k * d
    let q := N / D
    let r := N % D
    let m := if 2 * r < D then q
             else if D < 2 * r then q + 1
             else if q % 2 = 0 then q else q + 1
    min (m * pow2 k) (pow2 2098)

/-- The `double` nearest to the rational `x` (IEEE 754 binary64, round to
nearest, ties to even; `±2^1024` for an overflow). -/
def roundDouble (x : ℚ) : ℚ :=
  if x.num < 0 then - mkRat (roundMagnitude x.num.natAbs x.den) (pow2 1074)
  else mkRat (roundMagnitude x.num.natAbs x.den) (pow2 1074)

/-- The `double` sum `x + y`: the exact sum, written as a fraction, rounded. -/
def doubleAdd (x y : ℚ) : ℚ :=
  roundDouble (mkRat (x.num * y.den + y.num * x.den) (x.den * y.den))

/-- The `double` difference `x - y`: the exact difference, written as a
fraction, rounded. -/
def doubleSub (x y : ℚ) : ℚ :=
  roundDouble (mkRat (x.num * y.den - y.num * x.den) (x.den * y.den))

/-- The rational `x` is a value of type `double` (a finite one, or `±2^1024`
for an infinity): rounding leaves it as it is. Every `m * 2 ^ e` with
`|m| < 2 ^ 53` and `-1074 ≤ e ≤ 971` is one (`roundDouble_exact`). -/
def isDouble (x : ℚ) : Prop := roundDouble x = x

instance (x : ℚ) : Decidable (isDouble x) := by
  unfold isDouble; infer_instance

/-- Text of `ss << std::fixed << std::setprecision(2) << x` on a fresh
stream: `x` rounded to hundredths (ties to even), at least one digit before
the point and exactly two after it. -/
def fixed2 (x : ℚ) : String :=
  let n := x.num.natAbs * 100
  let q := n / x.den
  let r := n % x.den
  let h := if 2 * r < x.den then q
           else if x.den < 2 * r then q + 1
           else if q % 2 = 0 then q else q + 1
  (if x < 0 then "-" else "") ++ toString (h / 100) ++ "."
    ++ toString (h % 100 / 10) ++ toString (h % 10)

/-! ## `class ATM` -/

/-- `ATM::addTransaction`, with the timestamp `now` that
`getCurrentTimestamp()` returns at the call. -/
def addTransaction (now : String) (transaction : String) (a : ATM) : ATM :=
  { a with transaction_history_ :=
      a.transaction_history_ ++ ["[" ++ now ++ "] " ++ transaction] }

/-- The constructor `ATM::ATM`. -/
def ATM.new (account_no : Int) (name : String) (pin : Int) (balance : ℚ)
    (mobile_no : String) : ATM :=
  { account_no_ := account_no, name_ := name, pin_ := pin, balance_ := balance,
    mobile_no_ := mobile_no, transaction_history_ := [],
    is_locked_ := false, pin_attempts_ := 0 }

def getAccountNo (a : ATM) : Int := a.account_no_

def getPIN (a : ATM) : Int := a.pin_

def getBalance (a : ATM) : ℚ := a.balance_

def getMobileNo (a : ATM) : String := a.mobile_no_

def getTransactionHistory (a : ATM) : List String := a.transaction_history_

def isLocked (a : ATM) : Bool := a.is_locked_

def getPinAttempts (a : ATM) : Int := a.pin_attempts_

/-- `ATM::updateMobile`. -/
def updateMobile (now : String) (old_mobile new_mobile : String) (a : ATM) :
    Result Bool :=
  if old_mobile ≠ a.mobile_no_ then
    ⟨false, [.text "\nIncorrect old mobile number!\n"], a⟩
  else if new_mobile.length ≠ 10 then
    ⟨false, [.text "\nInvalid mobile number! Must be 10 digits.\n"], a⟩
  else
    let a1 := { a with mobile_no_ := new_mobile }
    let a2 := addTransaction now "Mobile number updated" a1
    ⟨true, [.text "\nSuccessfully updated mobile number.\n"], a2⟩

/-- `ATM::withdrawCash`. -/
def withdrawCash (now : String) (amount : ℚ) (a : ATM) : Result Bool :=
  if amount ≤ 0 then
    ⟨false, [.text "\nInvalid amount! Must be positive.\n"], a⟩
  else if amount > a.balance_ then
    ⟨false, [.text "\nInsufficient balance!\n",
             .text "Available balance: ₹", .fixed, .setprecision 2,
             .num a.balance_, .text "\n"], a⟩
  else if amount > MAX_WITHDRAWAL then
    ⟨false, [.text "\n Withdrawal limit exceeded!\n",
             .text "Maximum withdrawal per transaction: ₹",
             .num MAX_WITHDRAWAL, .text "\n"], a⟩
  else
    let a1 := { a with balance_ := doubleSub a.balance_ amount }
    let a2 := addTransaction now ("Withdrew ₹" ++ fixed2 amount) a1
    ⟨true, [.text "\n✓ Please collect your cash\n",
            .text "Amount withdrawn: ₹", .fixed, .setprecision 2,
            .num amount, .text "\n",
            .text "Available balance: ₹", .fixed, .setprecision 2,
            .num a2.balance_, .text "\n"], a2⟩

/-- `ATM::depositCash`. -/
def depositCash (now : String) (amount : ℚ) (a : ATM) : Result Bool :=
  if amount ≤ 0 then
    ⟨false, [.text "\nInvalid amount! Must be positive.\n"], a⟩
  else
    let a1 := { a with balance_ := doubleAdd a.balance_ amount }
    let a2 := addTransaction now ("Deposited ₹" ++ fixed2 amount) a1
    ⟨true, [.text "\nAmount deposited successfully\n",
            .text "New balance: ₹", .fixed, .setprecision 2,
            .num a2.balance_, .text "\n"], a2⟩

/-- `ATM::lockAccount`. -/
def lockAccount (now : String) (a : ATM) : Result Unit :=
  let a1 := { a with is_locked_ := true }
  let a2 := addTransaction now "Account locked" a1
  ⟨(), [.text "\n Account has been locked for security.\n"], a2⟩

/-- `ATM::unlockAccount`. -/
def unlockAccount (a : ATM) : Result Unit :=
  ⟨(), [.text "\n Account unlocked. You may try again.\n"],
   { a with is_locked_ := false, pin_attempts_ := 0 }⟩

/-- `ATM::incrementPinAttempts`. -/
def incrementPinAttempts (now : String) (a : ATM) : Result Unit :=
  let a1 := { a with pin_attempts_ := wrapInt (a.pin_attempts_ + 1) }
  if a1.pin_attempts_ ≥ MAX_PIN_ATTEMPTS then
    lockAccount now a1
  else
    ⟨(), [], a1⟩

/-- `ATM::resetPinAttempts`. -/
def resetPinAttempts (a : ATM) : ATM :=
  { a with pin_attempts_ := 0 }

/-! ## `class ATMSystem` -/

/-- `ATMSystem::authenticate` on the account `user`. `account_in` and
`pin_in` are the results of the two extractions from `std::cin` (`none`:
the extraction failed; the PIN is not read when the first one failed). -/
def authenticate (now : String) (account_in pin_in : Option Int) (user : ATM) :
    Result Bool :=
  let banner : List Out :=
    [.text "║      WELCOME TO ATM            ║\n", .text "Enter Account Number: "]
  match account_in with
  | none => ⟨false, banner, user⟩
  | some account_no =>
    match pin_in with
    | none => ⟨false, banner ++ [.text "Enter PIN: "], user⟩
    | some pin =>
      if account_no = getAccountNo user ∧ pin = getPIN user then
        ⟨true, banner ++ [.text "Enter PIN: "], resetPinAttempts user⟩
      else
        let r := incrementPinAttempts now user
        let remaining := wrapInt (3 - getPinAttempts r.atm)
        let tail : List Out :=
          if remaining > 0 then
            [.text " ", .int remaining, .text " attempt(s) remaining.\n"]
          else []
        ⟨false, banner ++ [.text "Enter PIN: ", .text "\n Invalid credentials!\n"]
                  ++ r.out ++ tail, r.atm⟩

/-- The account that the constructor `ATMSystem::ATMSystem` creates. -/
def ATMSystem.new : ATM :=
  ATM.new 987654321 "Hardik" 1234 50000 "9370054900"

/-! ## Sequences of calls -/

/-- A call of `withdrawCash` or `depositCash`, with its timestamp and amount. -/
inductive CashOp where
  | withdraw (now : String) (amount : ℚ)
  | deposit (now : String) (amount : ℚ)
  deriving DecidableEq, Repr

/-- The outcome of one cash call. -/
def CashOp.call : CashOp → ATM → Result Bool
  | .withdraw now amount, a => withdrawCash now amount a
  | .deposit now amount, a => depositCash now amount a

/-- The account after each call of a sequence of cash calls, in order. -/
def cashStates : List CashOp → ATM → List ATM
  | [], _ => []
  | op :: ops, a => (op.call a).atm :: cashStates ops (op.call a).atm

/-- The first thing `withdrawCash` / `depositCash` print when the amount is
not positive (error kind `InvalidAmount`). -/
def reportsInvalidAmount (r : Result Bool) : Prop :=
  r.ret = false ∧ r.out.head? = some (.text "\nInvalid amount! Must be positive.\n")

/-- The first thing `withdrawCash` prints when the amount exceeds the balance
(error kind `InsufficientFunds`). -/
def reportsInsufficientFunds (r : Result Bool) : Prop :=
  r.ret = false ∧ r.out.head? = some (.text "\nInsufficient balance!\n")

/-- The first thing `withdrawCash` prints when the amount exceeds
`MAX_WITHDRAWAL` (error kind `LimitExceeded`). -/
def reportsLimitExceeded (r : Result Bool) : Prop :=
  r.ret = false ∧ r.out.head? = some (.text "\n Withdrawal limit exceeded!\n")

instance (r : Result Bool) : Decidable (reportsInvalidAmount r) := by
  unfold reportsInvalidAmount; infer_instance

instance (r : Result Bool) : Decidable (reportsInsufficientFunds r) := by
  unfold reportsInsufficientFunds; infer_instance

instance (r : Result Bool) : Decidable (reportsLimitExceeded r) := by
  unfold reportsLimitExceeded; infer_instance

/-- A call on the account: the public operations of `ATM` that change it,
and `ATMSystem::authenticate`. -/
inductive Op where
  | updateMobile (now old_mobile new_mobile : String)
  | withdrawCash (now : String) (amount : ℚ)
  | depositCash (now : String) (amount : ℚ)
  | lockAccount (now : String)
  | unlockAccount
  | incrementPinAttempts (now : String)
  | resetPinAttempts
  | authenticate (now : String) (account_in pin_in : Option Int)
  deriving DecidableEq, Repr

/-- The account after one call. -/
def Op.apply : Op → ATM → ATM
  | .updateMobile now old_mobile new_mobile, a =>
      (ATMCore.updateMobile now old_mobile new_mobile a).atm
  | .withdrawCash now amount, a => (ATMCore.withdrawCash now amount a).atm
  | .depositCash now amount, a => (ATMCore.depositCash now amount a).atm
  | .lockAccount now, a => (ATMCore.lockAccount now a).atm
  | .unlockAccount, a => (ATMCore.unlockAccount a).atm
  | .incrementPinAttempts now, a => (ATMCore.incrementPinAttempts now a).atm
  | .resetPinAttempts, a => ATMCore.resetPinAttempts a
  | .authenticate now account_in pin_in, a =>
      (ATMCore.authenticate now account_in pin_in a).atm

/-- The account after a sequence of calls, first call first. -/
def runOps : List Op → ATM → ATM
  | [], a => a
  | op :: ops, a => runOps ops (op.apply a)

/-- The invariant `failedAttempts >= MAX_ATTEMPTS ⇒ locked`. -/
def LockInv (a : ATM) : Prop :=
  a.pin_attempts_ ≥ MAX_PIN_ATTEMPTS → a.is_locked_ = true

instance (a : ATM) : Decidable (LockInv a) := by
  unfold LockInv; infer_instance

/-- The account of `ATMSystem` after three `authenticate` calls with the right
account number and the wrong PIN `0`. -/
def lockedByThreeFailures : ATM :=
  runOps [.authenticate "2024-01-01 10:00:00" (some 987654321) (some 0),
          .authenticate "2024-01-01 10:00:05" (some 987654321) (some 0),
          .authenticate "2024-01-01 10:00:10" (some 987654321) (some 0)]
    ATMSystem.new

/-- The first thing `updateMobile` prints when the old number does not match
(error kind `MobileMismatch`). -/
def reportsMobileMismatch (r : Result Bool) : Prop :=
  r.ret = false ∧ r.out.head? = some (.text "\nIncorrect old mobile number!\n")

/-- The first thing `updateMobile` prints when the new number does not have
length 10 (error kind `InvalidMobileFormat`). -/
def reportsInvalidMobileFormat (r : Result Bool) : Prop :=
  r.ret = false ∧
    r.out.head? = some (.text "\nInvalid mobile number! Must be 10 digits.\n")

instance (r : Result Bool) : Decidable (reportsMobileMismatch r) := by
  unfold reportsMobileMismatch; infer_instance

instance (r : Result Bool) : Decidable (reportsInvalidMobileFormat r) := by
  unfold reportsInvalidMobileFormat; infer_instance

/-- The account after a sequence of cash calls, first call first. -/
def cashRun : List CashOp → ATM → ATM
  | [], a => a
  | op :: ops, a => cashRun ops (op.call a).atm

/-- Sum of the amounts of the `depositCash` calls of the sequence that
returned `true`. -/
def depositedTotal : List CashOp → ATM → ℚ
  | [], _ => 0
  | .deposit now amount :: ops, a =>
      (if (depositCash now amount a).ret = true then amount else 0)
        + depositedTotal ops (depositCash now amount a).atm
  | .withdraw now amount :: ops, a =>
      depositedTotal ops (withdrawCash now amount a).atm

/-- Sum of the amounts of the `withdrawCash` calls of the sequence that
returned `true`. -/
def withdrawnTotal : List CashOp → ATM → ℚ
  | [], _ => 0
  | .withdraw now amount :: ops, a =>
      (if (withdrawCash now amount a).ret = true then amount else 0)
        + withdrawnTotal ops (withdrawCash now amount a).atm
  | .deposit now amount :: ops, a =>
      withdrawnTotal ops (depositCash now amount a).atm

/-- Number of calls of the sequence that returned `true`. -/
def succeededCount : List CashOp → ATM → Nat
  | [], _ => 0
  | op :: ops, a =>
      (if (op.call a).ret = true then 1 else 0) + succeededCount ops (op.call a).atm

/-! ## The console driver

`handleMainMenu` and `run` are modelled by the calls they make on `user_`:
the result carries the trace of these calls, each with the account at the
moment of the call, and the account at the end. What the driver itself prints
and the screen handling (`clearScreen`, `pauseScreen`, `clearInputBuffer`) are
left out. The console input is given prompt by prompt. -/

/-- A call made by the driver: a member function of `ATM` with its arguments,
the static `ATM::waitForLockout` with the seconds it sleeps, or
`ATMSystem::authenticate` with the value it returned. -/
inductive Call where
  | authenticate (ret : Bool)
  | displayBalance
  | withdrawCash (amount : ℚ)
  | depositCash (amount : ℚ)
  | displayUserDetails
  | updateMobile (old_mobile new_mobile : String)
  | displayTransactionHistory
  | lockAccount
  | waitForLockout (seconds : Int)
  | unlockAccount
  deriving DecidableEq, Repr

/-- A call together with the account at the moment it is made. -/
structure Event where
  call : Call
  before : ATM
  deriving DecidableEq, Repr

/-- What is read from `std::cin` in one pass of the loop of `handleMainMenu`:
`choice` is the result of `std::cin >> choice` (`none`: it failed), `amount`
the result of `std::cin >> amount` (read for the choices 2 and 3),
`old_mobile` and `new_mobile` the two strings read for choice 5; `now` is the
clock during the pass. -/
structure MenuInput where
  now : String
  choice : Option Int
  amount : Option ℚ
  old_mobile : String
  new_mobile : String
  deriving DecidableEq, Repr

/-- Outcome of `handleMainMenu`: `returned` tells whether the function
returned (`false`: the input ended while the loop was still running). -/
structure MenuResult where
  returned : Bool
  trace : List Event
  atm : ATM
  deriving DecidableEq, Repr

/-- Put an event in front of the trace of the rest of the loop. -/
def MenuResult.after (e : Event) (r : MenuResult) : MenuResult :=
  { r with trace := e :: r.trace }

/-- `ATMSystem::handleMainMenu`: the `while (true)` loop, one `MenuInput` per
pass. -/
def handleMainMenu : List MenuInput → ATM → MenuResult
  | [], user =>
    if isLocked user = true then ⟨true, [], user⟩ else ⟨false, [], user⟩
  | i :: rest, user =>
    if isLocked user = true then ⟨true, [], user⟩
    else
      match i.choice with
      | none => handleMainMenu rest user
      | some choice =>
        if choice = 1 then
          (handleMainMenu rest user).after ⟨.displayBalance, user⟩
        else if choice = 2 then
          match i.amount with
          | some amount =>
            (handleMainMenu rest (withdrawCash i.now amount user).atm).after
              ⟨.withdrawCash amount, user⟩
          | none => handleMainMenu rest user
        else if choice = 3 then
          match i.amount with
          | some amount =>
            (handleMainMenu rest (depositCash i.now amount user).atm).after
              ⟨.depositCash amount, user⟩
          | none => handleMainMenu rest user
        else if choice = 4 then
          (handleMainMenu rest user).after ⟨.displayUserDetails, user⟩
        else if choice = 5 then
          (handleMainMenu rest (updateMobile i.now i.old_mobile i.new_mobile user).atm).after
            ⟨.updateMobile i.old_mobile i.new_mobile, user⟩
        else if choice = 6 then
          (handleMainMenu rest user).after ⟨.displayTransactionHistory, user⟩
        else if choice = 7 then
          ⟨true, [⟨.lockAccount, user⟩], (lockAccount i.now user).atm⟩
        else if choice = 8 then
          ⟨true, [], user⟩
        else
          handleMainMenu rest user

/-- What is read from `std::cin` in one pass of the loop of `run`:
the two extractions of `authenticate`, the answer `retry` to "Would you like
to try again?", the input of the menu session, and the answer
`continue_session` to "Start new session?"; `now` is the clock when
`authenticate` runs. -/
structure Session where
  now : String
  account_in : Option Int
  pin_in : Option Int
  retry : Char
  menu : List MenuInput
  continue_session : Char
  deriving DecidableEq, Repr

/-- Outcome of `run`: `finished` tells whether the loop was left by `break`
(`false`: the input ended while the loop was still running). -/
structure RunResult where
  finished : Bool
  trace : List Event
  atm : ATM
  deriving DecidableEq, Repr

/-- Put events in front of the trace of the rest of the loop. -/
def RunResult.after (es : List Event) (r : RunResult) : RunResult :=
  { r with trace := es ++ r.trace }

/-- `ATMSystem::run`: the `while (true)` loop, one `Session` per pass. -/
def run : List Session → ATM → RunResult
  | [], user => ⟨false, [], user⟩
  | s :: rest, user =>
    let r := authenticate s.now s.account_in s.pin_in user
    if r.ret = false then
      if isLocked r.atm = true then
        if s.retry = 'y' ∨ s.retry = 'Y' then
          (run rest (unlockAccount r.atm).atm).after
            [⟨.authenticate r.ret, user⟩, ⟨.waitForLockout LOCKOUT_SECONDS, r.atm⟩,
             ⟨.unlockAccount, r.atm⟩]
        else
          ⟨true, [⟨.authenticate r.ret, user⟩], r.atm⟩
      else
        (run rest r.atm).after [⟨.authenticate r.ret, user⟩]
    else
      let m := handleMainMenu s.menu r.atm
      if m.returned = true then
        if s.continue_session ≠ 'y' ∧ s.continue_session ≠ 'Y' then
          ⟨true, ⟨.authenticate r.ret, user⟩ :: m.trace, m.atm⟩
        else
          (run rest m.atm).after (⟨.authenticate r.ret, user⟩ :: m.trace)
      else
        ⟨false, ⟨.authenticate r.ret, user⟩ :: m.trace, m.atm⟩

/-- The calls that change balance or mobile number. -/
def Call.isOperation : Call → Bool
  | .withdrawCash _ => true
  | .depositCash _ => true
  | .updateMobile _ _ => true
  | _ => false

/-- Console input of a run of `run` on which the account is locked out and
then unlocked: three passes with the right account number and the wrong PIN
`0`, the answer `y` to the retry question after the third, and no more input. -/
def lockoutSessions : List Session :=
  [⟨"2024-01-01 10:00:00", some 987654321, some 0, 'n', [], 'n'⟩,
   ⟨"2024-01-01 10:00:05", some 987654321, some 0, 'n', [], 'n'⟩,
   ⟨"2024-01-01 10:00:10", some 987654321, some 0, 'y', [], 'n'⟩]

/-- The `double` that `std::cin >> amount` yields for the input `0.1`:
`3602879701896397 / 2 ^ 55`. -/
def tenth : ℚ := mkRat 3602879701896397 36028797018963968

/-- The exact result that a cash call aims at: balance minus amount for a
withdrawal, balance plus amount for a deposit. -/
def exactResult : CashOp → ATM → ℚ
  | .withdraw _ amount, a => a.balance_ - amount
  | .deposit _ amount, a => a.balance_ + amount

/-- No call of the sequence rounds: for every call that succeeds, the exact
result is a `double`. -/
def noRounding : List CashOp → ATM → Prop
  | [], _ => True
  | op :: ops, a =>
      ((op.call a).ret = true → isDouble (exactResult op a)) ∧
        noRounding ops (op.call a).atm

/-- A sequence of cash calls whose sums round: deposit `tenth`, withdraw 20000
twice, withdraw 10000, withdraw `tenth`. -/
def roundingCalls : List CashOp :=
  [.deposit "2024-01-01 10:00:00" tenth, .withdraw "2024-01-01 10:00:05" 20000,
   .withdraw "2024-01-01 10:00:10" 20000, .withdraw "2024-01-01 10:00:15" 10000,
   .withdraw "2024-01-01 10:00:20" tenth]

/-! ## Cash operations -/

theorem pow2_eq (k : Nat) : pow2 k = 2 ^ k := by
  unfold pow2
  rw [Nat.shiftLeft_eq, Nat.one_mul]

theorem doubleAdd_eq (x y : ℚ) : doubleAdd x y = roundDouble (x + y) := by
  rw [Rat.add_def']
  rfl

theorem doubleSub_eq (x y : ℚ) : doubleSub x y = roundDouble (x - y) := by
  rw [Rat.sub_def']
  rfl

theorem roundDouble_nonneg (x : ℚ) (h : 0 ≤ x) : 0 ≤ roundDouble x := by
  unfold roundDouble
  have hn : ¬ x.num < 0 := not_lt.mpr (Rat.num_nonneg.mpr h)
  rw [if_neg hn, Rat.mkRat_eq_div]
  exact div_nonneg (by positivity) (by positivity)

theorem foldl_bisect (F : Nat) (l : List Nat) (acc : Nat)
    (h : acc = 0 ∨ pow2 acc ≤ F) :
    l.foldl (fun acc i => if pow2 (acc + i) ≤ F then acc + i else acc) acc = 0 ∨
    pow2 (l.foldl (fun acc i => if pow2 (acc + i) ≤ F then acc + i else acc) acc) ≤ F := by
  induction l generalizing acc with
  | nil => exact h
  | cons i l ih =>
    simp only [List.foldl_cons]
    apply ih
    split_ifs with hc
    · exact Or.inr hc
    · exact h

theorem log2Floor_le (F : Nat) : log2Floor F = 0 ∨ pow2 (log2Floor F) ≤ F :=
  foldl_bisect F _ 0 (Or.inl rfl)

theorem roundMagnitude_exact (n d M j : Nat) (hd : 0 < d) (hM : M < 2 ^ 53) (hj : j ≤ 2045)
    (h : n * 2 ^ 1074 = M * 2 ^ j * d) : roundMagnitude n d = M * 2 ^ j := by
  have hF : n * pow2 1074 / d = M * 2 ^ j := by
    rw [pow2_eq, h]
    exact Nat.mul_div_cancel _ hd
  have hlt : M * 2 ^ j < 2 ^ 2098 := by
    calc M * 2 ^ j < 2 ^ 53 * 2 ^ j := Nat.mul_lt_mul_of_pos_right hM (Nat.two_pow_pos j)
      _ ≤ 2 ^ 53 * 2 ^ 2045 := Nat.mul_le_mul_left _ (Nat.pow_le_pow_right (by norm_num) hj)
      _ = 2 ^ 2098 := by rw [show (2098 : Nat) = 53 + 2045 from rfl, Nat.pow_add]
  have hk : log2Floor (M * 2 ^ j) - 52 ≤ j := by
    rcases log2Floor_le (M * 2 ^ j) with h0 | hle
    · rw [h0]; exact Nat.zero_le _
    · rw [pow2_eq] at hle
      have h1 : 2 ^ log2Floor (M * 2 ^ j) < 2 ^ (53 + j) := by
        calc 2 ^ log2Floor (M * 2 ^ j) ≤ M * 2 ^ j := hle
          _ < 2 ^ 53 * 2 ^ j := Nat.mul_lt_mul_of_pos_right hM (Nat.two_pow_pos j)
          _ = 2 ^ (53 + j) := by rw [← Nat.pow_add]
      have h2 := (Nat.pow_lt_pow_iff_right (by norm_num : 1 < 2)).mp h1
      omega
  obtain ⟨c, hc⟩ := Nat.exists_eq_add_of_le hk
  have hG : M * 2 ^ j = (M * 2 ^ c) * 2 ^ (log2Floor (M * 2 ^ j) - 52) := by
    conv_lhs => rw [hc]
    rw [Nat.pow_add]
    ring
  unfold roundMagnitude
  simp only [hF]
  rw [if_neg (by rw [pow2_eq]; exact not_le.mpr hlt)]
  have hDpos : 0 < pow2 (log2Floor (M * 2 ^ j) - 52) * d := by
    rw [pow2_eq]; positivity
  have hN : n * pow2 1074 = (M * 2 ^ c) * (pow2 (log2Floor (M * 2 ^ j) - 52) * d) := by
    rw [pow2_eq, h, pow2_eq]
    conv_lhs => rw [hG]
    ring
  have hq : n * pow2 1074 / (pow2 (log2Floor (M * 2 ^ j) - 52) * d) = M * 2 ^ c := by
    rw [hN]; exact Nat.mul_div_cancel _ hDpos
  have hr : n * pow2 1074 % (pow2 (log2Floor (M * 2 ^ j) - 52) * d) = 0 := by
    rw [hN]; exact Nat.mul_mod_left _ _
  rw [hq, hr, if_pos (by simpa using hDpos)]
  rw [pow2_eq, ← hG, pow2_eq]
  exact Nat.min_eq_left (Nat.le_of_lt hlt)

theorem natAbs_mul_eq_of_abs (x : ℚ) (F e : Nat)
    (hx : |x| = (F : ℚ) / ((2 ^ e : Nat) : ℚ)) : x.num.natAbs * 2 ^ e = F * x.den := by
  have hden : (0 : ℚ) < x.den := by exact_mod_cast x.den_pos
  have hpos : (0 : ℚ) < ((2 ^ e : Nat) : ℚ) := Nat.cast_pos.mpr (Nat.two_pow_pos e)
  have habs : |x| = (x.num.natAbs : ℚ) / x.den := by
    have h0 : |x| = |(x.num : ℚ) / x.den| := by rw [Rat.num_div_den]
    rw [h0, abs_div, abs_of_pos hden, Nat.cast_natAbs, Int.cast_abs]
  have h1 : (x.num.natAbs : ℚ) / x.den = (F : ℚ) / ((2 ^ e : Nat) : ℚ) := by rw [← habs, hx]
  have h2 := (div_eq_div_iff (ne_of_gt hden) (ne_of_gt hpos)).mp h1
  rw [← Nat.cast_mul, ← Nat.cast_mul] at h2
  exact Nat.cast_injective h2

theorem mkRat_eq_abs (x : ℚ) (F P : Nat) (hx : |x| = (F : ℚ) / (P : ℚ)) :
    mkRat F P = |x| := by
  rw [Rat.mkRat_eq_div, hx, Int.cast_natCast]

theorem roundDouble_exact (x : ℚ) (M j : Nat) (hM : M < 2 ^ 53) (hj : j ≤ 2045)
    (hx : |x| = ((M * 2 ^ j : Nat) : ℚ) / ((2 ^ 1074 : Nat) : ℚ)) : roundDouble x = x := by
  have hnat := natAbs_mul_eq_of_abs x _ _ hx
  have hmag := roundMagnitude_exact x.num.natAbs x.den M j x.den_pos hM hj hnat
  have hval : mkRat (roundMagnitude x.num.natAbs x.den) (pow2 1074) = |x| := by
    rw [hmag, pow2_eq]
    exact mkRat_eq_abs x _ _ hx
  unfold roundDouble
  rw [hval]
  split_ifs with hneg
  · have : x < 0 := Rat.num_neg.mp hneg
    rw [abs_of_neg this, neg_neg]
  · have : 0 ≤ x := Rat.num_nonneg.mp (not_lt.mp hneg)
    rw [abs_of_nonneg this]

theorem withdrawCash_fail_atm (now : String) (amount : ℚ) (a : ATM)
    (h : (withdrawCash now amount a).ret = false) :
    (withdrawCash now amount a).atm = a := by
  unfold withdrawCash at h ⊢
  split_ifs at h ⊢ <;> simp_all

theorem depositCash_fail_atm (now : String) (amount : ℚ) (a : ATM)
    (h : (depositCash now amount a).ret = false) :
    (depositCash now amount a).atm = a := by
  unfold depositCash at h ⊢
  split_ifs at h ⊢
  rfl

theorem updateMobile_fail_atm (now old_mobile new_mobile : String) (a : ATM)
    (h : (updateMobile now old_mobile new_mobile a).ret = false) :
    (updateMobile now old_mobile new_mobile a).atm = a := by
  unfold updateMobile at h ⊢
  split_ifs at h ⊢ <;> simp_all

theorem withdrawCash_balance_nonneg (now : String) (amount : ℚ) (a : ATM)
    (h : 0 ≤ a.balance_) : 0 ≤ (withdrawCash now amount a).atm.balance_ := by
  unfold withdrawCash
  split_ifs with h1 h2 h3
  · exact h
  · exact h
  · exact h
  · simp only [addTransaction]
    rw [doubleSub_eq]
    exact roundDouble_nonneg _ (by linarith)

theorem depositCash_balance_nonneg (now : String) (amount : ℚ) (a : ATM)
    (h : 0 ≤ a.balance_) : 0 ≤ (depositCash now amount a).atm.balance_ := by
  unfold depositCash
  split_ifs with h1
  · exact h
  · simp only [addTransaction]
    rw [doubleAdd_eq]
    exact roundDouble_nonneg _ (by linarith)

theorem CashOp.call_balance_nonneg (op : CashOp) (a : ATM) (h : 0 ≤ a.balance_) :
    0 ≤ (op.call a).atm.balance_ := by
  cases op with
  | withdraw now amount => exact withdrawCash_balance_nonneg now amount a h
  | deposit now amount => exact depositCash_balance_nonneg now amount a h

/-- C1. Balance non-negativity: from an account whose balance is not
negative, after every call of any finite sequence of `withdrawCash` and
`depositCash` calls with arbitrary amounts the balance is not negative. -/
theorem balance_nonneg_after_every_call (ops : List CashOp) (a : ATM)
    (h : 0 ≤ a.balance_) : ∀ b ∈ cashStates ops a, 0 ≤ b.balance_ := by
  induction ops generalizing a with
  | nil => intro b hb; simp [cashStates] at hb
  | cons op ops ih =>
    intro b hb
    have h1 : 0 ≤ (op.call a).atm.balance_ := CashOp.call_balance_nonneg op a h
    simp only [cashStates, List.mem_cons] at hb
    rcases hb with hb | hb
    · rw [hb]; exact h1
    · exact ih _ h1 b hb

theorem balance_nonneg_after_every_call_witness :
    (0 : ℚ) ≤ ATMSystem.new.balance_ ∧
    ∀ b ∈ cashStates [.deposit "t1" 1000, .withdraw "t2" 15000, .withdraw "t3" 25000]
        ATMSystem.new, 0 ≤ b.balance_ :=
  ⟨by decide, balance_nonneg_after_every_call _ ATMSystem.new (by decide)⟩

/-- C2. Rejected operations are side-effect-free: when `withdrawCash` fails
(amount ≤ 0, amount > balance or amount > 20000), when `depositCash` fails
(amount ≤ 0) and when `updateMobile` fails (old number mismatch or new number
not of length 10), the call returns `false` and the whole account after the
call equals the account before it; and more generally every call of the three
that returns `false` leaves the account as it was. -/
theorem rejected_operation_no_side_effect (now : String) (amount : ℚ)
    (old_mobile new_mobile : String) (a : ATM) :
    ((amount ≤ 0 ∨ amount > a.balance_ ∨ amount > 20000) →
        (withdrawCash now amount a).ret = false ∧ (withdrawCash now amount a).atm = a) ∧
    ((withdrawCash now amount a).ret = false → (withdrawCash now amount a).atm = a) ∧
    (amount ≤ 0 →
        (depositCash now amount a).ret = false ∧ (depositCash now amount a).atm = a) ∧
    ((depositCash now amount a).ret = false → (depositCash now amount a).atm = a) ∧
    ((old_mobile ≠ a.mobile_no_ ∨ new_mobile.length ≠ 10) →
        (updateMobile now old_mobile new_mobile a).ret = false ∧
        (updateMobile now old_mobile new_mobile a).atm = a) ∧
    ((updateMobile now old_mobile new_mobile a).ret = false →
        (updateMobile now old_mobile new_mobile a).atm = a) := by
  refine ⟨?_, withdrawCash_fail_atm now amount a, ?_, depositCash_fail_atm now amount a,
    ?_, updateMobile_fail_atm now old_mobile new_mobile a⟩
  · intro h
    have hr : (withdrawCash now amount a).ret = false := by
      unfold withdrawCash MAX_WITHDRAWAL
      split_ifs with h1 h2 h3
      · rfl
      · rfl
      · rfl
      · exfalso
        rcases h with h | h | h
        · exact h1 h
        · exact h2 h
        · exact h3 h
    exact ⟨hr, withdrawCash_fail_atm now amount a hr⟩
  · intro h
    have hr : (depositCash now amount a).ret = false := by
      unfold depositCash
      rw [if_pos h]
    exact ⟨hr, depositCash_fail_atm now amount a hr⟩
  · intro h
    have hr : (updateMobile now old_mobile new_mobile a).ret = false := by
      unfold updateMobile
      split_ifs with h1 h2
      · rfl
      · rfl
      · exfalso
        rcases h with h | h
        · exact h1 h
        · exact h2 h
    exact ⟨hr, updateMobile_fail_atm now old_mobile new_mobile a hr⟩

theorem rejected_operation_no_side_effect_witness :
    ((withdrawCash "t" (-5) ATMSystem.new).ret = false ∧
        (withdrawCash "t" (-5) ATMSystem.new).atm = ATMSystem.new) ∧
    (withdrawCash "t" 60000 ATMSystem.new).atm = ATMSystem.new ∧
    ((depositCash "t" (-5) ATMSystem.new).ret = false ∧
        (depositCash "t" (-5) ATMSystem.new).atm = ATMSystem.new) ∧
    ((updateMobile "t" "9370054900" "12345" ATMSystem.new).ret = false ∧
        (updateMobile "t" "9370054900" "12345" ATMSystem.new).atm = ATMSystem.new) :=
  ⟨(rejected_operation_no_side_effect "t" (-5) "9370054900" "12345" ATMSystem.new).1
      (Or.inl (by decide)),
   (rejected_operation_no_side_effect "t" 60000 "9370054900" "12345" ATMSystem.new).2.1
      (by decide),
   (rejected_operation_no_side_effect "t" (-5) "9370054900" "12345" ATMSystem.new).2.2.1
      (by decide),
   (rejected_operation_no_side_effect "t" (-5) "9370054900" "12345" ATMSystem.new).2.2.2.2.1
      (Or.inr (by decide))⟩

/-- C3. Order of the withdrawal checks: `withdrawCash` reports an invalid
amount exactly when amount ≤ 0, insufficient funds exactly when amount > 0 and
amount > balance (whatever the limit), an exceeded limit exactly when
0 < amount ≤ balance and amount > 20000, and succeeds exactly when
0 < amount ≤ balance and amount ≤ 20000. With balance 25000, 22000 reports the
limit; with balance 100, 30000 reports insufficient funds. -/
theorem withdrawCash_check_order (now : String) (amount : ℚ) (a : ATM) :
    (reportsInvalidAmount (withdrawCash now amount a) ↔ amount ≤ 0) ∧
    (reportsInsufficientFunds (withdrawCash now amount a) ↔
        0 < amount ∧ amount > a.balance_) ∧
    (reportsLimitExceeded (withdrawCash now amount a) ↔
        0 < amount ∧ amount ≤ a.balance_ ∧ amount > 20000) ∧
    ((withdrawCash now amount a).ret = true ↔
        0 < amount ∧ amount ≤ a.balance_ ∧ amount ≤ 20000) ∧
    reportsLimitExceeded (withdrawCash now 22000 { a with balance_ := 25000 }) ∧
    reportsInsufficientFunds (withdrawCash now 30000 { a with balance_ := 100 }) := by
  refine ⟨?_, ?_, ?_, ?_, ?_, ?_⟩
  · unfold reportsInvalidAmount withdrawCash
    split_ifs with h1 h2 h3 <;> simp [h1]
  · unfold reportsInsufficientFunds withdrawCash
    split_ifs with h1 h2 h3
    · simp; intro h; exact absurd h (not_lt.mpr h1)
    · simp; exact ⟨not_le.mp h1, h2⟩
    · simp; intro _; exact not_lt.mp h2
    · simp; intro _; exact not_lt.mp h2
  · unfold reportsLimitExceeded withdrawCash MAX_WITHDRAWAL
    split_ifs with h1 h2 h3
    · simp; intro h; exact absurd h (not_lt.mpr h1)
    · simp; intro _ h; exact absurd h (not_le.mpr h2)
    · simp; exact ⟨not_le.mp h1, not_lt.mp h2, h3⟩
    · simp; intro _ _; exact not_lt.mp h3
  · unfold withdrawCash MAX_WITHDRAWAL
    split_ifs with h1 h2 h3
    · simp; intro h; exact absurd h (not_lt.mpr h1)
    · simp; intro _ h; exact absurd h (not_le.mpr h2)
    · simp; intro _ _; exact h3
    · simp; exact ⟨not_le.mp h1, not_lt.mp h2, not_lt.mp h3⟩
  · unfold reportsLimitExceeded withdrawCash MAX_WITHDRAWAL
    norm_num
  · unfold reportsInsufficientFunds withdrawCash MAX_WITHDRAWAL
    norm_num

/-- C4, as the code has it. Successful withdrawal: when 0 < amount ≤ balance
and amount ≤ 20000, `withdrawCash` returns `true`; the new balance is the
result of the `double` subtraction, that is the old balance minus the amount
rounded to the nearest `double`: it is not negative, and it is exactly the old
balance minus the amount whenever that difference is a `double`; the ledger is
the old ledger with exactly one entry appended at the end, and every other
member (mobile number, lock flag, attempt counter, account number, name, PIN)
is unchanged. -/
theorem withdrawCash_success (now : String) (amount : ℚ) (a : ATM)
    (hpos : 0 < amount) (hbal : amount ≤ a.balance_) (hmax : amount ≤ 20000) :
    (withdrawCash now amount a).ret = true ∧
    (withdrawCash now amount a).atm.balance_ = roundDouble (a.balance_ - amount) ∧
    0 ≤ (withdrawCash now amount a).atm.balance_ ∧
    (isDouble (a.balance_ - amount) →
      (withdrawCash now amount a).atm.balance_ = a.balance_ - amount) ∧
    (∀ M j : Nat, M < 2 ^ 53 → j ≤ 2045 →
      a.balance_ - amount = ((M * 2 ^ j : Nat) : ℚ) / ((2 ^ 1074 : Nat) : ℚ) →
      (withdrawCash now amount a).atm.balance_ = a.balance_ - amount) ∧
    (withdrawCash now amount a).atm.transaction_history_ =
      a.transaction_history_ ++ ["[" ++ now ++ "] " ++ ("Withdrew ₹" ++ fixed2 amount)] ∧
    (withdrawCash now amount a).atm.mobile_no_ = a.mobile_no_ ∧
    (withdrawCash now amount a).atm.is_locked_ = a.is_locked_ ∧
    (withdrawCash now amount a).atm.pin_attempts_ = a.pin_attempts_ ∧
    (withdrawCash now amount a).atm.account_no_ = a.account_no_ ∧
    (withdrawCash now amount a).atm.name_ = a.name_ ∧
    (withdrawCash now amount a).atm.pin_ = a.pin_ := by
  have hb : (withdrawCash now amount a).atm.balance_ = roundDouble (a.balance_ - amount) := by
    unfold withdrawCash MAX_WITHDRAWAL
    rw [if_neg (not_le.mpr hpos), if_neg (not_lt.mpr hbal), if_neg (not_lt.mpr hmax)]
    exact doubleSub_eq _ _
  refine ⟨?_, hb, ?_, ?_, ?_, ?_⟩
  · unfold withdrawCash MAX_WITHDRAWAL
    rw [if_neg (not_le.mpr hpos), if_neg (not_lt.mpr hbal), if_neg (not_lt.mpr hmax)]
  · rw [hb]
    exact roundDouble_nonneg _ (by linarith)
  · intro hd
    rw [hb]
    exact hd
  · intro M j hM hj hx
    rw [hb]
    refine roundDouble_exact _ M j hM hj ?_
    rw [abs_of_nonneg (by linarith), hx]
  · unfold withdrawCash MAX_WITHDRAWAL
    rw [if_neg (not_le.mpr hpos), if_neg (not_lt.mpr hbal), if_neg (not_lt.mpr hmax)]
    exact ⟨rfl, rfl, rfl, rfl, rfl, rfl, rfl⟩

theorem withdrawCash_success_witness :
    (withdrawCash "t" 15000 ATMSystem.new).ret = true ∧
    (withdrawCash "t" 15000 ATMSystem.new).atm.balance_ =
      roundDouble (ATMSystem.new.balance_ - 15000) ∧
    0 ≤ (withdrawCash "t" 15000 ATMSystem.new).atm.balance_ ∧
    (withdrawCash "t" 15000 ATMSystem.new).atm.balance_ = ATMSystem.new.balance_ - 15000 ∧
    (withdrawCash "t" 15000 ATMSystem.new).atm.transaction_history_ =
      [] ++ ["[" ++ "t" ++ "] " ++ ("Withdrew ₹" ++ fixed2 15000)] ∧
    (withdrawCash "t" 15000 ATMSystem.new).atm.mobile_no_ = "9370054900" ∧
    (withdrawCash "t" 15000 ATMSystem.new).atm.is_locked_ = false ∧
    (withdrawCash "t" 15000 ATMSystem.new).atm.pin_attempts_ = 0 :=
  have h := withdrawCash_success "t" 15000 ATMSystem.new (by decide) (by decide) (by decide)
  ⟨h.1, h.2.1, h.2.2.1,
   h.2.2.2.1 (by
     show isDouble ((50000 : ℚ) - 15000)
     rw [show (50000 : ℚ) - 15000 = 35000 by norm_num]
     decide),
   h.2.2.2.2.2.1, h.2.2.2.2.2.2.1, h.2.2.2.2.2.2.2.1, h.2.2.2.2.2.2.2.2.1⟩

/-- C4 as stated fails: on the account of `ATMSystem` after
`depositCash(10000000000000000)` the balance is 10000000000050000; there
`withdrawCash(1)` returns `true` and leaves the balance at 10000000000050000,
because 10000000000049999 is not a `double` and the tie is rounded to the even
neighbour; the balance is not the old balance minus 1. -/
theorem withdrawCash_success_counterexample :
    (depositCash "2024-01-01 10:00:00" 10000000000000000 ATMSystem.new).atm.balance_ =
      10000000000050000 ∧
    (withdrawCash "2024-01-01 10:00:05" 1
      (depositCash "2024-01-01 10:00:00" 10000000000000000 ATMSystem.new).atm).ret = true ∧
    (withdrawCash "2024-01-01 10:00:05" 1
      (depositCash "2024-01-01 10:00:00" 10000000000000000 ATMSystem.new).atm).atm.balance_ =
      10000000000050000 ∧
    (withdrawCash "2024-01-01 10:00:05" 1
      (depositCash "2024-01-01 10:00:00" 10000000000000000 ATMSystem.new).atm).atm.balance_ ≠
      (depositCash "2024-01-01 10:00:00" 10000000000000000 ATMSystem.new).atm.balance_ - 1 := by
  have h1 : (depositCash "2024-01-01 10:00:00" 10000000000000000 ATMSystem.new).atm.balance_ =
      10000000000050000 := by decide
  have h2 : (withdrawCash "2024-01-01 10:00:05" 1
      (depositCash "2024-01-01 10:00:00" 10000000000000000 ATMSystem.new).atm).atm.balance_ =
      10000000000050000 := by decide
  refine ⟨h1, by decide, h2, ?_⟩
  rw [h2, h1]
  norm_num

/-- C5, as the code has it. Deposit contract: `depositCash` fails, reporting
an invalid amount, if and only if amount ≤ 0; for every amount > 0, with no
upper bound, it returns `true`; the new balance is the result of the `double`
addition, that is the old balance plus the amount rounded to the nearest
`double`, and it is exactly the old balance plus the amount whenever that sum
is a `double`; exactly one entry is appended at the end of the ledger, and
every other member is unchanged. -/
theorem depositCash_contract (now : String) (amount : ℚ) (a : ATM) :
    ((depositCash now amount a).ret = false ↔ amount ≤ 0) ∧
    (reportsInvalidAmount (depositCash now amount a) ↔ amount ≤ 0) ∧
    (0 < amount →
      (depositCash now amount a).ret = true ∧
      (depositCash now amount a).atm.balance_ = roundDouble (a.balance_ + amount) ∧
      (isDouble (a.balance_ + amount) →
        (depositCash now amount a).atm.balance_ = a.balance_ + amount) ∧
      (∀ M j : Nat, M < 2 ^ 53 → j ≤ 2045 →
        |a.balance_ + amount| = ((M * 2 ^ j : Nat) : ℚ) / ((2 ^ 1074 : Nat) : ℚ) →
        (depositCash now amount a).atm.balance_ = a.balance_ + amount) ∧
      (depositCash now amount a).atm.transaction_history_ =
        a.transaction_history_ ++ ["[" ++ now ++ "] " ++ ("Deposited ₹" ++ fixed2 amount)] ∧
      (depositCash now amount a).atm.mobile_no_ = a.mobile_no_ ∧
      (depositCash now amount a).atm.is_locked_ = a.is_locked_ ∧
      (depositCash now amount a).atm.pin_attempts_ = a.pin_attempts_ ∧
      (depositCash now amount a).atm.account_no_ = a.account_no_ ∧
      (depositCash now amount a).atm.name_ = a.name_ ∧
      (depositCash now amount a).atm.pin_ = a.pin_) := by
  refine ⟨?_, ?_, ?_⟩
  · unfold depositCash
    split_ifs with h1 <;> simp [h1]
  · unfold reportsInvalidAmount depositCash
    split_ifs with h1 <;> simp [h1]
  · intro hpos
    have hb : (depositCash now amount a).atm.balance_ = roundDouble (a.balance_ + amount) := by
      unfold depositCash
      rw [if_neg (not_le.mpr hpos)]
      exact doubleAdd_eq _ _
    refine ⟨?_, hb, ?_, ?_, ?_⟩
    · unfold depositCash
      rw [if_neg (not_le.mpr hpos)]
    · intro hd
      rw [hb]
      exact hd
    · intro M j hM hj hx
      rw [hb]
      exact roundDouble_exact _ M j hM hj hx
    · unfold depositCash
      rw [if_neg (not_le.mpr hpos)]
      exact ⟨rfl, rfl, rfl, rfl, rfl, rfl, rfl⟩

theorem depositCash_contract_witness :
    (depositCash "t" 1000000000000 ATMSystem.new).ret = true ∧
    (depositCash "t" 1000000000000 ATMSystem.new).atm.balance_ =
      roundDouble (ATMSystem.new.balance_ + 1000000000000) ∧
    (depositCash "t" 1000000000000 ATMSystem.new).atm.balance_ =
      ATMSystem.new.balance_ + 1000000000000 ∧
    (depositCash "t" 1000000000000 ATMSystem.new).atm.transaction_history_ =
      [] ++ ["[" ++ "t" ++ "] " ++ ("Deposited ₹" ++ fixed2 1000000000000)] ∧
    (depositCash "t" 1000000000000 ATMSystem.new).atm.mobile_no_ = "9370054900" ∧
    (depositCash "t" 1000000000000 ATMSystem.new).atm.is_locked_ = false ∧
    (depositCash "t" 1000000000000 ATMSystem.new).atm.pin_attempts_ = 0 :=
  have h := (depositCash_contract "t" 1000000000000 ATMSystem.new).2.2 (by decide)
  ⟨h.1, h.2.1,
   h.2.2.1 (by
     show isDouble ((50000 : ℚ) + 1000000000000)
     rw [show (50000 : ℚ) + 1000000000000 = 1000000050000 by norm_num]
     decide),
   h.2.2.2.2.1, h.2.2.2.2.2.1, h.2.2.2.2.2.2.1, h.2.2.2.2.2.2.2.1⟩

/-- C5 as stated fails: on the account of `ATMSystem` (balance 50000) the
deposit of `tenth`, the `double` read for the input 0.1, returns `true` and
gives the balance 6871961417495347 / 2 ^ 37 = 50000.0999999999985..., which is
not 50000 plus the amount; the deposit of 2 ^ (-1000) returns `true` and
leaves the balance at 50000. -/
theorem depositCash_contract_counterexample :
    (0 : ℚ) < tenth ∧
    (depositCash "2024-01-01 10:00:00" tenth ATMSystem.new).ret = true ∧
    (depositCash "2024-01-01 10:00:00" tenth ATMSystem.new).atm.balance_ =
      mkRat 6871961417495347 137438953472 ∧
    (depositCash "2024-01-01 10:00:00" tenth ATMSystem.new).atm.balance_ ≠
      ATMSystem.new.balance_ + tenth ∧
    (0 : ℚ) < mkRat 1 (pow2 1000) ∧
    (depositCash "2024-01-01 10:00:00" (mkRat 1 (pow2 1000)) ATMSystem.new).ret = true ∧
    (depositCash "2024-01-01 10:00:00" (mkRat 1 (pow2 1000)) ATMSystem.new).atm.balance_ =
      ATMSystem.new.balance_ := by
  have h : (depositCash "2024-01-01 10:00:00" tenth ATMSystem.new).atm.balance_ =
      mkRat 6871961417495347 137438953472 := by decide
  refine ⟨by decide, by decide, h, ?_, by decide, by decide, by decide⟩
  rw [h, Rat.add_def']
  decide

/-! ## Authentication and lockout -/

theorem wrapInt_of_range (x : Int) (h1 : -2147483648 ≤ x) (h2 : x < 2147483648) :
    wrapInt x = x := by
  unfold wrapInt
  omega

theorem authenticate_mismatch (now : String) (n p : Int) (a : ATM)
    (h : ¬(n = a.account_no_ ∧ p = a.pin_)) :
    (authenticate now (some n) (some p) a).ret = false ∧
    (authenticate now (some n) (some p) a).atm = (incrementPinAttempts now a).atm := by
  unfold authenticate getAccountNo getPIN
  simp only [if_neg h, and_self]

theorem authenticate_match (now : String) (n p : Int) (a : ATM)
    (h : n = a.account_no_ ∧ p = a.pin_) :
    (authenticate now (some n) (some p) a).ret = true ∧
    (authenticate now (some n) (some p) a).atm = resetPinAttempts a := by
  unfold authenticate getAccountNo getPIN
  simp only [if_pos h, and_self]

theorem incrementPinAttempts_below (now : String) (a : ATM)
    (h : wrapInt (a.pin_attempts_ + 1) < 3) :
    (incrementPinAttempts now a).atm =
      { a with pin_attempts_ := wrapInt (a.pin_attempts_ + 1) } := by
  unfold incrementPinAttempts MAX_PIN_ATTEMPTS
  simp only [ge_iff_le, if_neg (not_le.mpr h)]

theorem incrementPinAttempts_reached (now : String) (a : ATM)
    (h : 3 ≤ wrapInt (a.pin_attempts_ + 1)) :
    (incrementPinAttempts now a).atm =
      { a with pin_attempts_ := wrapInt (a.pin_attempts_ + 1),
               is_locked_ := true,
               transaction_history_ :=
                 a.transaction_history_ ++ ["[" ++ now ++ "] " ++ "Account locked"] } := by
  unfold incrementPinAttempts MAX_PIN_ATTEMPTS
  simp only [ge_iff_le, if_pos h, lockAccount, addTransaction]

theorem authenticate_mismatch_below (now : String) (n p : Int) (a : ATM) (k : Int)
    (h : ¬(n = a.account_no_ ∧ p = a.pin_)) (hk : a.pin_attempts_ = k)
    (hk0 : 0 ≤ k) (hk2 : k < 2) :
    (authenticate now (some n) (some p) a).ret = false ∧
    (authenticate now (some n) (some p) a).atm = { a with pin_attempts_ := k + 1 } := by
  obtain ⟨hr, ha⟩ := authenticate_mismatch now n p a h
  have hw : wrapInt (a.pin_attempts_ + 1) = k + 1 := by
    rw [hk]; exact wrapInt_of_range _ (by omega) (by omega)
  refine ⟨hr, ?_⟩
  rw [ha, incrementPinAttempts_below now a (by rw [hw]; omega), hw]

theorem authenticate_mismatch_third (now : String) (n p : Int) (a : ATM)
    (h : ¬(n = a.account_no_ ∧ p = a.pin_)) (hk : a.pin_attempts_ = 2) :
    (authenticate now (some n) (some p) a).ret = false ∧
    (authenticate now (some n) (some p) a).atm =
      { a with pin_attempts_ := 3, is_locked_ := true,
               transaction_history_ :=
                 a.transaction_history_ ++ ["[" ++ now ++ "] " ++ "Account locked"] } := by
  obtain ⟨hr, ha⟩ := authenticate_mismatch now n p a h
  have hw : wrapInt (a.pin_attempts_ + 1) = 3 := by
    rw [hk]; exact wrapInt_of_range _ (by omega) (by omega)
  refine ⟨hr, ?_⟩
  rw [ha, incrementPinAttempts_reached now a (by rw [hw]), hw]

/-- C6. Lockout threshold: on an Active account with `pin_attempts_ = 0`,
after one and after two consecutive `authenticate` calls whose account number
or PIN does not match, the account is still Active, the counter equals the
number of failures and the ledger is unchanged; after the third such call the
account is Locked, the counter is 3 and exactly one entry, "Account locked"
with its timestamp, has been appended; balance and mobile number are unchanged
throughout. -/
theorem lockout_after_three_failures (a : ATM) (t1 t2 t3 : String)
    (n1 p1 n2 p2 n3 p3 : Int)
    (hact : a.is_locked_ = false) (h0 : a.pin_attempts_ = 0)
    (h1 : ¬(n1 = a.account_no_ ∧ p1 = a.pin_))
    (h2 : ¬(n2 = a.account_no_ ∧ p2 = a.pin_))
    (h3 : ¬(n3 = a.account_no_ ∧ p3 = a.pin_)) :
    let r1 := authenticate t1 (some n1) (some p1) a
    let r2 := authenticate t2 (some n2) (some p2) r1.atm
    let r3 := authenticate t3 (some n3) (some p3) r2.atm
    (r1.ret = false ∧ r1.atm.is_locked_ = false ∧ r1.atm.pin_attempts_ = 1 ∧
      r1.atm.transaction_history_ = a.transaction_history_ ∧
      r1.atm.balance_ = a.balance_ ∧ r1.atm.mobile_no_ = a.mobile_no_) ∧
    (r2.ret = false ∧ r2.atm.is_locked_ = false ∧ r2.atm.pin_attempts_ = 2 ∧
      r2.atm.transaction_history_ = a.transaction_history_ ∧
      r2.atm.balance_ = a.balance_ ∧ r2.atm.mobile_no_ = a.mobile_no_) ∧
    (r3.ret = false ∧ r3.atm.is_locked_ = true ∧ r3.atm.pin_attempts_ = 3 ∧
      r3.atm.transaction_history_ =
        a.transaction_history_ ++ ["[" ++ t3 ++ "] " ++ "Account locked"] ∧
      r3.atm.balance_ = a.balance_ ∧ r3.atm.mobile_no_ = a.mobile_no_) := by
  intro r1 r2 r3
  obtain ⟨hr1, ha1⟩ := authenticate_mismatch_below t1 n1 p1 a 0 h1 h0 (by omega) (by omega)
  have ha1' : r1.atm = { a with pin_attempts_ := 1 } := ha1
  obtain ⟨hr2, ha2⟩ := authenticate_mismatch_below t2 n2 p2 r1.atm 1
    (by rw [ha1']; exact h2) (by rw [ha1']) (by omega) (by omega)
  have ha2' : r2.atm = { a with pin_attempts_ := 2 } := by
    rw [show r2.atm = { r1.atm with pin_attempts_ := 1 + 1 } from ha2, ha1']; rfl
  obtain ⟨hr3, ha3⟩ := authenticate_mismatch_third t3 n3 p3 r2.atm
    (by rw [ha2']; exact h3) (by rw [ha2'])
  have ha3' : r3.atm =
      { a with
        pin_attempts_ := 3
        is_locked_ := true
        transaction_history_ :=
          a.transaction_history_ ++ ["[" ++ t3 ++ "] " ++ "Account locked"] } := by
    rw [show r3.atm = _ from ha3, ha2']
  refine ⟨⟨hr1, ?_⟩, ⟨hr2, ?_⟩, ⟨hr3, ?_⟩⟩
  · rw [ha1']; exact ⟨hact, rfl, rfl, rfl, rfl⟩
  · rw [ha2']; exact ⟨hact, rfl, rfl, rfl, rfl⟩
  · rw [ha3']; exact ⟨rfl, rfl, rfl, rfl, rfl⟩

theorem lockout_after_three_failures_witness :
    (authenticate "t1" (some 987654321) (some 1111) ATMSystem.new).atm.is_locked_ = false ∧
    (authenticate "t2" (some 1) (some 1234)
      (authenticate "t1" (some 987654321) (some 1111) ATMSystem.new).atm).atm.pin_attempts_
        = 2 ∧
    (authenticate "t3" (some 2) (some 3)
      (authenticate "t2" (some 1) (some 1234)
        (authenticate "t1" (some 987654321) (some 1111) ATMSystem.new).atm).atm).atm.is_locked_
        = true ∧
    (authenticate "t3" (some 2) (some 3)
      (authenticate "t2" (some 1) (some 1234)
        (authenticate "t1" (some 987654321) (some 1111)
          ATMSystem.new).atm).atm).atm.transaction_history_
        = [] ++ ["[" ++ "t3" ++ "] " ++ "Account locked"] :=
  have h := lockout_after_three_failures ATMSystem.new "t1" "t2" "t3"
    987654321 1111 1 1234 2 3 (by decide) (by decide) (by decide) (by decide) (by decide)
  ⟨h.1.2.1, h.2.1.2.2.1, h.2.2.2.1, h.2.2.2.2.2.1⟩

theorem authenticate_ret_true_iff (now : String) (account_in pin_in : Option Int) (a : ATM) :
    (authenticate now account_in pin_in a).ret = true ↔
      account_in = some a.account_no_ ∧ pin_in = some a.pin_ := by
  cases account_in with
  | none => simp [authenticate]
  | some n =>
    cases pin_in with
    | none => simp [authenticate]
    | some p =>
      by_cases h : n = a.account_no_ ∧ p = a.pin_
      · exact ⟨fun _ => ⟨by rw [h.1], by rw [h.2]⟩, fun _ => (authenticate_match now n p a h).1⟩
      · rw [(authenticate_mismatch now n p a h).1]
        simpa using h

theorem authenticate_ret_true_atm (now : String) (account_in pin_in : Option Int) (a : ATM)
    (h : (authenticate now account_in pin_in a).ret = true) :
    (authenticate now account_in pin_in a).atm = resetPinAttempts a := by
  obtain ⟨h1, h2⟩ := (authenticate_ret_true_iff now account_in pin_in a).mp h
  subst h1 h2
  exact (authenticate_match now _ _ a ⟨rfl, rfl⟩).2

/-- C7. Reset of the failure counter: on an Active account `authenticate`
succeeds if and only if both the supplied account number and the supplied PIN
equal the stored ones; after every successful `authenticate` the counter is 0
and the account is still Active with balance, mobile number and ledger
unchanged, in particular after one or two preceding failures from a zero
counter; and after every `unlockAccount` the account is Active with counter 0. -/
theorem failure_counter_reset (a : ATM) (now : String) (account_in pin_in : Option Int) :
    (a.is_locked_ = false →
      ((authenticate now account_in pin_in a).ret = true ↔
        account_in = some a.account_no_ ∧ pin_in = some a.pin_)) ∧
    (a.is_locked_ = false → (authenticate now account_in pin_in a).ret = true →
      (authenticate now account_in pin_in a).atm.pin_attempts_ = 0 ∧
      (authenticate now account_in pin_in a).atm.is_locked_ = false ∧
      (authenticate now account_in pin_in a).atm.balance_ = a.balance_ ∧
      (authenticate now account_in pin_in a).atm.mobile_no_ = a.mobile_no_ ∧
      (authenticate now account_in pin_in a).atm.transaction_history_ =
        a.transaction_history_) ∧
    (a.is_locked_ = false → a.pin_attempts_ = 0 →
      ∀ (t1 t2 : String) (n1 p1 n2 p2 : Int),
        ¬(n1 = a.account_no_ ∧ p1 = a.pin_) → ¬(n2 = a.account_no_ ∧ p2 = a.pin_) →
        ((authenticate now (some a.account_no_) (some a.pin_)
            (authenticate t1 (some n1) (some p1) a).atm).ret = true ∧
         (authenticate now (some a.account_no_) (some a.pin_)
            (authenticate t1 (some n1) (some p1) a).atm).atm.pin_attempts_ = 0 ∧
         (authenticate now (some a.account_no_) (some a.pin_)
            (authenticate t1 (some n1) (some p1) a).atm).atm.is_locked_ = false) ∧
        ((authenticate now (some a.account_no_) (some a.pin_)
            (authenticate t2 (some n2) (some p2)
              (authenticate t1 (some n1) (some p1) a).atm).atm).ret = true ∧
         (authenticate now (some a.account_no_) (some a.pin_)
            (authenticate t2 (some n2) (some p2)
              (authenticate t1 (some n1) (some p1) a).atm).atm).atm.pin_attempts_ = 0 ∧
         (authenticate now (some a.account_no_) (some a.pin_)
            (authenticate t2 (some n2) (some p2)
              (authenticate t1 (some n1) (some p1) a).atm).atm).atm.is_locked_ = false)) ∧
    ((unlockAccount a).atm.is_locked_ = false ∧ (unlockAccount a).atm.pin_attempts_ = 0) := by
  refine ⟨fun _ => authenticate_ret_true_iff now account_in pin_in a, ?_, ?_, ⟨rfl, rfl⟩⟩
  · intro hact h
    rw [authenticate_ret_true_atm now account_in pin_in a h]
    exact ⟨rfl, hact, rfl, rfl, rfl⟩
  · intro hact h0 t1 t2 n1 p1 n2 p2 h1 h2
    have e1 := (authenticate_mismatch_below t1 n1 p1 a 0 h1 h0 (by omega) (by omega)).2
    have e2 := (authenticate_mismatch_below t2 n2 p2
      (authenticate t1 (some n1) (some p1) a).atm 1
      (by rw [e1]; exact h2) (by rw [e1]; rfl) (by omega) (by omega)).2
    constructor
    · have m := authenticate_match now a.account_no_ a.pin_
        (authenticate t1 (some n1) (some p1) a).atm (by rw [e1]; exact ⟨rfl, rfl⟩)
      refine ⟨m.1, ?_, ?_⟩
      · rw [m.2]; rfl
      · rw [m.2, e1]; exact hact
    · have m := authenticate_match now a.account_no_ a.pin_
        (authenticate t2 (some n2) (some p2) (authenticate t1 (some n1) (some p1) a).atm).atm
        (by rw [e2, e1]; exact ⟨rfl, rfl⟩)
      refine ⟨m.1, ?_, ?_⟩
      · rw [m.2]; rfl
      · rw [m.2, e2, e1]; exact hact

theorem failure_counter_reset_witness :
    ((authenticate "t" (some 987654321) (some 1234) ATMSystem.new).ret = true ↔
      some (987654321 : Int) = some ATMSystem.new.account_no_ ∧
      some (1234 : Int) = some ATMSystem.new.pin_) ∧
    (authenticate "t" (some 987654321) (some 1234) ATMSystem.new).atm.pin_attempts_ = 0 ∧
    (authenticate "t" (some 987654321) (some 1234)
      (authenticate "t2" (some 987654321) (some 1)
        (authenticate "t1" (some 987654321) (some 0)
          ATMSystem.new).atm).atm).atm.pin_attempts_ = 0 :=
  have h := failure_counter_reset ATMSystem.new "t" (some 987654321) (some 1234)
  ⟨h.1 (by decide), (h.2.1 (by decide) (by decide)).1,
   (h.2.2.1 (by decide) (by decide) "t1" "t2" 987654321 0 987654321 1
      (by decide) (by decide)).2.2.1⟩

theorem incrementPinAttempts_cases (now : String) (a : ATM) :
    (wrapInt (a.pin_attempts_ + 1) < 3 ∧
      (incrementPinAttempts now a).atm =
        { a with pin_attempts_ := wrapInt (a.pin_attempts_ + 1) }) ∨
    (3 ≤ wrapInt (a.pin_attempts_ + 1) ∧
      (incrementPinAttempts now a).atm =
        { a with
          pin_attempts_ := wrapInt (a.pin_attempts_ + 1)
          is_locked_ := true
          transaction_history_ :=
            a.transaction_history_ ++ ["[" ++ now ++ "] " ++ "Account locked"] }) := by
  rcases lt_or_le (wrapInt (a.pin_attempts_ + 1)) 3 with h | h
  · exact Or.inl ⟨h, incrementPinAttempts_below now a h⟩
  · exact Or.inr ⟨h, incrementPinAttempts_reached now a h⟩

theorem authenticate_cases (now : String) (account_in pin_in : Option Int) (a : ATM) :
    ((authenticate now account_in pin_in a).ret = false ∧
      (authenticate now account_in pin_in a).atm = a ∧
      (account_in = none ∨ pin_in = none)) ∨
    ((authenticate now account_in pin_in a).ret = true ∧
      (authenticate now account_in pin_in a).atm = resetPinAttempts a) ∨
    ((authenticate now account_in pin_in a).ret = false ∧
      (authenticate now account_in pin_in a).atm = (incrementPinAttempts now a).atm ∧
      ∃ n p, account_in = some n ∧ pin_in = some p ∧ ¬(n = a.account_no_ ∧ p = a.pin_)) := by
  cases account_in with
  | none => exact Or.inl ⟨rfl, rfl, Or.inl rfl⟩
  | some n =>
    cases pin_in with
    | none => exact Or.inl ⟨rfl, rfl, Or.inr rfl⟩
    | some p =>
      by_cases h : n = a.account_no_ ∧ p = a.pin_
      · exact Or.inr (Or.inl (authenticate_match now n p a h))
      · exact Or.inr (Or.inr ⟨(authenticate_mismatch now n p a h).1,
          (authenticate_mismatch now n p a h).2, n, p, rfl, rfl, h⟩)

/-- C8, as the code has it. `authenticate` does not look at the lock: on a
Locked account it returns `true` exactly for the stored account number and
PIN, and then resets the counter to 0 and leaves ledger, balance and mobile
number as they were; with any other input it returns `false`, balance and
mobile number are unchanged and the old ledger is a prefix of the new one.
In every case the account is still Locked after the call. -/
theorem authenticate_while_locked (a : ATM) (now : String)
    (account_in pin_in : Option Int) (hl : a.is_locked_ = true) :
    (authenticate now account_in pin_in a).atm.is_locked_ = true ∧
    ((authenticate now account_in pin_in a).ret = true ↔
      account_in = some a.account_no_ ∧ pin_in = some a.pin_) ∧
    ((authenticate now account_in pin_in a).ret = true →
      (authenticate now account_in pin_in a).atm.pin_attempts_ = 0 ∧
      (authenticate now account_in pin_in a).atm.transaction_history_ =
        a.transaction_history_ ∧
      (authenticate now account_in pin_in a).atm.balance_ = a.balance_ ∧
      (authenticate now account_in pin_in a).atm.mobile_no_ = a.mobile_no_) ∧
    ((authenticate now account_in pin_in a).ret = false →
      a.transaction_history_ <+: (authenticate now account_in pin_in a).atm.transaction_history_ ∧
      (authenticate now account_in pin_in a).atm.balance_ = a.balance_ ∧
      (authenticate now account_in pin_in a).atm.mobile_no_ = a.mobile_no_) := by
  refine ⟨?_, authenticate_ret_true_iff now account_in pin_in a, ?_, ?_⟩
  · rcases authenticate_cases now account_in pin_in a with ⟨_, h, _⟩ | ⟨_, h⟩ | ⟨_, h, _⟩
    · rw [h]; exact hl
    · rw [h]; exact hl
    · rw [h]
      rcases incrementPinAttempts_cases now a with ⟨_, e⟩ | ⟨_, e⟩
      · rw [e]; exact hl
      · rw [e]
  · intro h
    rw [authenticate_ret_true_atm now account_in pin_in a h]
    exact ⟨rfl, rfl, rfl, rfl⟩
  · intro hf
    rcases authenticate_cases now account_in pin_in a with ⟨_, h, _⟩ | ⟨ht, _⟩ | ⟨_, h, _⟩
    · rw [h]; exact ⟨List.prefix_refl _, rfl, rfl⟩
    · rw [hf] at ht; exact absurd ht (by decide)
    · rw [h]
      rcases incrementPinAttempts_cases now a with ⟨_, e⟩ | ⟨_, e⟩
      · rw [e]; exact ⟨List.prefix_refl _, rfl, rfl⟩
      · rw [e]; exact ⟨List.prefix_append _ _, rfl, rfl⟩

theorem authenticate_while_locked_witness :
    (authenticate "2024-01-01 10:00:15" (some 987654321) (some 1234)
      lockedByThreeFailures).atm.is_locked_ = true ∧
    (authenticate "2024-01-01 10:00:15" (some 987654321) (some 1234)
      lockedByThreeFailures).atm.pin_attempts_ = 0 :=
  have h := authenticate_while_locked lockedByThreeFailures "2024-01-01 10:00:15"
    (some 987654321) (some 1234) (by decide)
  ⟨h.1, (h.2.2.1 (by decide)).1⟩

/-- C8 as stated fails: the account of `ATMSystem` is Locked with counter 3
after three wrong PINs; a fourth `authenticate` with the right account number
and PIN returns `true` and sets the counter to 0. The same call also returns
`true` on the account locked by `lockAccount` (menu choice 7), the state in
which `ATMSystem::run` calls `authenticate` on a Locked account. -/
theorem authenticate_while_locked_counterexample :
    lockedByThreeFailures.is_locked_ = true ∧
    lockedByThreeFailures.pin_attempts_ = 3 ∧
    (authenticate "2024-01-01 10:00:15" (some 987654321) (some 1234)
      lockedByThreeFailures).ret = true ∧
    (authenticate "2024-01-01 10:00:15" (some 987654321) (some 1234)
      lockedByThreeFailures).atm.pin_attempts_ = 0 ∧
    ¬((authenticate "2024-01-01 10:00:15" (some 987654321) (some 1234)
        lockedByThreeFailures).ret = false ∧
      (authenticate "2024-01-01 10:00:15" (some 987654321) (some 1234)
        lockedByThreeFailures).atm.pin_attempts_ = lockedByThreeFailures.pin_attempts_ ∧
      (authenticate "2024-01-01 10:00:15" (some 987654321) (some 1234)
        lockedByThreeFailures).atm.transaction_history_ =
          lockedByThreeFailures.transaction_history_) ∧
    (lockAccount "2024-01-01 10:00:00" ATMSystem.new).atm.is_locked_ = true ∧
    (authenticate "2024-01-01 10:00:15" (some 987654321) (some 1234)
      (lockAccount "2024-01-01 10:00:00" ATMSystem.new).atm).ret = true := by
  decide

/-! ## Lock invariant -/

theorem withdrawCash_lock_frame (now : String) (amount : ℚ) (a : ATM) :
    (withdrawCash now amount a).atm.is_locked_ = a.is_locked_ ∧
    (withdrawCash now amount a).atm.pin_attempts_ = a.pin_attempts_ := by
  unfold withdrawCash
  split_ifs <;> exact ⟨rfl, rfl⟩

theorem depositCash_lock_frame (now : String) (amount : ℚ) (a : ATM) :
    (depositCash now amount a).atm.is_locked_ = a.is_locked_ ∧
    (depositCash now amount a).atm.pin_attempts_ = a.pin_attempts_ := by
  unfold depositCash
  split_ifs <;> exact ⟨rfl, rfl⟩

theorem updateMobile_lock_frame (now old_mobile new_mobile : String) (a : ATM) :
    (updateMobile now old_mobile new_mobile a).atm.is_locked_ = a.is_locked_ ∧
    (updateMobile now old_mobile new_mobile a).atm.pin_attempts_ = a.pin_attempts_ := by
  unfold updateMobile
  split_ifs <;> exact ⟨rfl, rfl⟩

theorem LockInv_of_frame (a b : ATM) (h : b.is_locked_ = a.is_locked_ ∧
    b.pin_attempts_ = a.pin_attempts_) (ha : LockInv a) : LockInv b := by
  unfold LockInv at ha ⊢
  rw [h.1, h.2]
  exact ha

theorem LockInv_incrementPinAttempts (now : String) (a : ATM) :
    LockInv (incrementPinAttempts now a).atm := by
  unfold LockInv MAX_PIN_ATTEMPTS
  rcases incrementPinAttempts_cases now a with ⟨h, e⟩ | ⟨_, e⟩
  · rw [e]
    intro h3
    exact absurd h (not_lt.mpr h3)
  · rw [e]
    intro _
    rfl

theorem LockInv_resetPinAttempts (a : ATM) : LockInv (resetPinAttempts a) := by
  intro h
  change (3 : Int) ≤ 0 at h
  omega

theorem LockInv_apply (op : Op) (a : ATM) (ha : LockInv a) : LockInv (op.apply a) := by
  cases op with
  | updateMobile now old_mobile new_mobile =>
    exact LockInv_of_frame a _ (updateMobile_lock_frame now old_mobile new_mobile a) ha
  | withdrawCash now amount =>
    exact LockInv_of_frame a _ (withdrawCash_lock_frame now amount a) ha
  | depositCash now amount =>
    exact LockInv_of_frame a _ (depositCash_lock_frame now amount a) ha
  | lockAccount now =>
    intro _
    rfl
  | unlockAccount =>
    intro h
    change (3 : Int) ≤ 0 at h
    omega
  | incrementPinAttempts now => exact LockInv_incrementPinAttempts now a
  | resetPinAttempts => exact LockInv_resetPinAttempts a
  | authenticate now account_in pin_in =>
    show LockInv (authenticate now account_in pin_in a).atm
    rcases authenticate_cases now account_in pin_in a with ⟨_, h, _⟩ | ⟨_, h⟩ | ⟨_, h, _⟩
    · rw [h]; exact ha
    · rw [h]; exact LockInv_resetPinAttempts a
    · rw [h]; exact LockInv_incrementPinAttempts now a

theorem LockInv_runOps (ops : List Op) (a : ATM) (ha : LockInv a) :
    LockInv (runOps ops a) := by
  induction ops generalizing a with
  | nil => exact ha
  | cons op ops ih => exact ih _ (LockInv_apply op a ha)

theorem LockInv_new (account_no : Int) (name : String) (pin : Int) (balance : ℚ)
    (mobile_no : String) : LockInv (ATM.new account_no name pin balance mobile_no) := by
  intro h
  change (3 : Int) ≤ 0 at h
  omega

/-- C9. Lock invariant: `pin_attempts_ >= 3 → is_locked_` holds in the state
the constructor builds, is preserved by every call (authentication, failed or
successful, withdraw, deposit, mobile update, lock, unlock, and the two
counter operations), and therefore holds after every sequence of calls on a
constructed account. -/
theorem lock_invariant :
    (∀ (account_no : Int) (name : String) (pin : Int) (balance : ℚ) (mobile_no : String),
      LockInv (ATM.new account_no name pin balance mobile_no)) ∧
    (∀ (op : Op) (a : ATM), LockInv a → LockInv (op.apply a)) ∧
    (∀ (ops : List Op) (account_no : Int) (name : String) (pin : Int) (balance : ℚ)
        (mobile_no : String),
      LockInv (runOps ops (ATM.new account_no name pin balance mobile_no))) :=
  ⟨LockInv_new, LockInv_apply,
   fun ops account_no name pin balance mobile_no =>
     LockInv_runOps ops _ (LockInv_new account_no name pin balance mobile_no)⟩

theorem lock_invariant_witness :
    LockInv ((Op.authenticate "t" (some 987654321) (some 0)).apply
      { ATMSystem.new with pin_attempts_ := 2 }) ∧
    ((Op.authenticate "t" (some 987654321) (some 0)).apply
      { ATMSystem.new with pin_attempts_ := 2 }).pin_attempts_ = 3 :=
  ⟨lock_invariant.2.1 (Op.authenticate "t" (some 987654321) (some 0))
      { ATMSystem.new with pin_attempts_ := 2 } (by decide),
   by decide⟩

/-! ## Ledger -/

theorem history_apply_cases (op : Op) (a : ATM) :
    (op.apply a).transaction_history_ = a.transaction_history_ ∨
    ∃ e, (op.apply a).transaction_history_ = a.transaction_history_ ++ [e] := by
  cases op with
  | updateMobile now old_mobile new_mobile =>
    simp only [Op.apply]
    unfold updateMobile
    split_ifs
    · exact Or.inl rfl
    · exact Or.inl rfl
    · exact Or.inr ⟨_, rfl⟩
  | withdrawCash now amount =>
    simp only [Op.apply]
    unfold withdrawCash
    split_ifs
    · exact Or.inl rfl
    · exact Or.inl rfl
    · exact Or.inl rfl
    · exact Or.inr ⟨_, rfl⟩
  | depositCash now amount =>
    simp only [Op.apply]
    unfold depositCash
    split_ifs
    · exact Or.inl rfl
    · exact Or.inr ⟨_, rfl⟩
  | lockAccount now => exact Or.inr ⟨_, rfl⟩
  | unlockAccount => exact Or.inl rfl
  | incrementPinAttempts now =>
    simp only [Op.apply]
    rcases incrementPinAttempts_cases now a with ⟨_, e⟩ | ⟨_, e⟩
    · rw [e]; exact Or.inl rfl
    · rw [e]; exact Or.inr ⟨_, rfl⟩
  | resetPinAttempts => exact Or.inl rfl
  | authenticate now account_in pin_in =>
    simp only [Op.apply]
    rcases authenticate_cases now account_in pin_in a with ⟨_, h, _⟩ | ⟨_, h⟩ | ⟨_, h, _⟩
    · rw [h]; exact Or.inl rfl
    · rw [h]; exact Or.inl rfl
    · rw [h]
      rcases incrementPinAttempts_cases now a with ⟨_, e⟩ | ⟨_, e⟩
      · rw [e]; exact Or.inl rfl
      · rw [e]; exact Or.inr ⟨_, rfl⟩

theorem authenticate_fail_history (now : String) (account_in pin_in : Option Int) (a : ATM)
    (hf : (authenticate now account_in pin_in a).ret = false) :
    ((authenticate now account_in pin_in a).atm.is_locked_ = a.is_locked_ ∧
      (authenticate now account_in pin_in a).atm.transaction_history_ =
        a.transaction_history_ ∧
      ¬(∃ n p, account_in = some n ∧ pin_in = some p ∧ 3 ≤ wrapInt (a.pin_attempts_ + 1))) ∨
    ((authenticate now account_in pin_in a).atm.is_locked_ = true ∧
      (authenticate now account_in pin_in a).atm.transaction_history_ =
        a.transaction_history_ ++ ["[" ++ now ++ "] " ++ "Account locked"] ∧
      ∃ n p, account_in = some n ∧ pin_in = some p ∧ 3 ≤ wrapInt (a.pin_attempts_ + 1)) := by
  rcases authenticate_cases now account_in pin_in a with
    ⟨_, h, hn⟩ | ⟨ht, _⟩ | ⟨_, h, n, p, hn, hp, _⟩
  · left
    rw [h]
    refine ⟨rfl, rfl, ?_⟩
    rintro ⟨n, p, h1, h2, _⟩
    rcases hn with hn | hn
    · rw [hn] at h1; exact absurd h1 (by simp)
    · rw [hn] at h2; exact absurd h2 (by simp)
  · rw [hf] at ht; exact absurd ht (by decide)
  · rw [h]
    rcases incrementPinAttempts_cases now a with ⟨hlt, e⟩ | ⟨hge, e⟩
    · left
      rw [e]
      refine ⟨rfl, rfl, ?_⟩
      rintro ⟨_, _, _, _, h3⟩
      exact absurd hlt (not_lt.mpr h3)
    · right
      rw [e]
      exact ⟨rfl, rfl, n, p, hn, hp, hge⟩

theorem length_append_one (l : List String) (e : String) :
    (l ++ [e]).length = l.length + 1 := by
  simp

/-- C10, as the code has it. For every call and every state the ledger before
the call is a prefix of the ledger after it. Its length grows by exactly one
on each successful `withdrawCash`, `depositCash` and `updateMobile` and on each
`lockAccount`; by exactly one on a failed `authenticate` that takes the account
from Active to Locked; by zero on a failed `authenticate` that leaves an Active
account Active and on a successful `authenticate`. On any account, Locked ones
included, a failed `authenticate` appends one entry exactly when both inputs
were read and the incremented counter is at least 3, and none otherwise. -/
theorem ledger_append_only (op : Op) (a : ATM) (now : String) (amount : ℚ)
    (old_mobile new_mobile : String) (account_in pin_in : Option Int) :
    a.transaction_history_ <+: (op.apply a).transaction_history_ ∧
    ((withdrawCash now amount a).ret = true →
      (withdrawCash now amount a).atm.transaction_history_.length =
        a.transaction_history_.length + 1) ∧
    ((depositCash now amount a).ret = true →
      (depositCash now amount a).atm.transaction_history_.length =
        a.transaction_history_.length + 1) ∧
    ((updateMobile now old_mobile new_mobile a).ret = true →
      (updateMobile now old_mobile new_mobile a).atm.transaction_history_.length =
        a.transaction_history_.length + 1) ∧
    ((lockAccount now a).atm.transaction_history_.length =
        a.transaction_history_.length + 1) ∧
    ((authenticate now account_in pin_in a).ret = false → a.is_locked_ = false →
      (authenticate now account_in pin_in a).atm.is_locked_ = true →
      (authenticate now account_in pin_in a).atm.transaction_history_.length =
        a.transaction_history_.length + 1) ∧
    ((authenticate now account_in pin_in a).ret = false → a.is_locked_ = false →
      (authenticate now account_in pin_in a).atm.is_locked_ = false →
      (authenticate now account_in pin_in a).atm.transaction_history_.length =
        a.transaction_history_.length) ∧
    ((authenticate now account_in pin_in a).ret = true →
      (authenticate now account_in pin_in a).atm.transaction_history_.length =
        a.transaction_history_.length) ∧
    ((authenticate now account_in pin_in a).ret = false →
      (authenticate now account_in pin_in a).atm.transaction_history_.length =
        a.transaction_history_.length +
          (if account_in.isSome ∧ pin_in.isSome ∧ 3 ≤ wrapInt (a.pin_attempts_ + 1)
            then 1 else 0)) := by
  refine ⟨?_, ?_, ?_, ?_, ?_, ?_, ?_, ?_, ?_⟩
  · rcases history_apply_cases op a with h | ⟨e, h⟩
    · rw [h]
    · rw [h]; exact List.prefix_append _ _
  · intro h
    unfold withdrawCash at h ⊢
    split_ifs at h ⊢
    exact length_append_one _ _
  · intro h
    unfold depositCash at h ⊢
    split_ifs at h ⊢
    exact length_append_one _ _
  · intro h
    unfold updateMobile at h ⊢
    split_ifs at h ⊢
    exact length_append_one _ _
  · exact length_append_one _ _
  · intro hf hact hl
    rcases authenticate_fail_history now account_in pin_in a hf with ⟨h1, _, _⟩ | ⟨_, h2, _⟩
    · rw [h1, hact] at hl; exact absurd hl (by decide)
    · rw [h2]; exact length_append_one _ _
  · intro hf _ hl
    rcases authenticate_fail_history now account_in pin_in a hf with ⟨_, h2, _⟩ | ⟨h1, _, _⟩
    · rw [h2]
    · rw [h1] at hl; exact absurd hl (by decide)
  · intro h
    rw [authenticate_ret_true_atm now account_in pin_in a h]
    rfl
  · intro hf
    rcases authenticate_fail_history now account_in pin_in a hf with
      ⟨_, h2, hn⟩ | ⟨_, h2, n, p, hn, hp, h3⟩
    · rw [h2, if_neg, Nat.add_zero]
      rintro ⟨h4, h5, h6⟩
      obtain ⟨n, hn'⟩ := Option.isSome_iff_exists.mp h4
      obtain ⟨p, hp'⟩ := Option.isSome_iff_exists.mp h5
      exact hn ⟨n, p, hn', hp', h6⟩
    · rw [h2, if_pos ⟨by rw [hn]; rfl, by rw [hp]; rfl, h3⟩]
      exact length_append_one _ _

theorem ledger_append_only_witness :
    (withdrawCash "t" 15000 ATMSystem.new).atm.transaction_history_.length =
      ATMSystem.new.transaction_history_.length + 1 ∧
    (authenticate "t" (some 987654321) (some 0)
      { ATMSystem.new with pin_attempts_ := 2 }).atm.transaction_history_.length = 0 + 1 ∧
    (authenticate "t" (some 987654321) (some 0)
      ATMSystem.new).atm.transaction_history_.length = 0 :=
  ⟨(ledger_append_only (.lockAccount "u") ATMSystem.new "t" 15000 "" ""
      (some 987654321) (some 0)).2.1 (by decide),
   (ledger_append_only (.lockAccount "u") { ATMSystem.new with pin_attempts_ := 2 } "t"
      15000 "" "" (some 987654321) (some 0)).2.2.2.2.2.1 (by decide) (by decide) (by decide),
   (ledger_append_only (.lockAccount "u") ATMSystem.new "t" 15000 "" ""
      (some 987654321) (some 0)).2.2.2.2.2.2.1 (by decide) (by decide) (by decide)⟩

/-- C10 as stated fails: on the account of `ATMSystem`, Locked by three wrong
PINs, a further `authenticate` with a wrong PIN fails and triggers no
transition (the account is Locked before and after the call), yet the ledger
grows by one entry. -/
theorem ledger_append_only_counterexample :
    lockedByThreeFailures.is_locked_ = true ∧
    (authenticate "2024-01-01 10:00:15" (some 987654321) (some 0)
      lockedByThreeFailures).ret = false ∧
    (authenticate "2024-01-01 10:00:15" (some 987654321) (some 0)
      lockedByThreeFailures).atm.is_locked_ = lockedByThreeFailures.is_locked_ ∧
    (authenticate "2024-01-01 10:00:15" (some 987654321) (some 0)
      lockedByThreeFailures).atm.transaction_history_.length =
        lockedByThreeFailures.transaction_history_.length + 1 ∧
    (authenticate "2024-01-01 10:00:15" (some 987654321) (some 0)
      lockedByThreeFailures).atm.transaction_history_ =
        ["[2024-01-01 10:00:10] Account locked", "[2024-01-01 10:00:15] Account locked"] := by
  decide

/-! ## Mobile number -/

/-- C11. Mobile update: `updateMobile` succeeds if and only if the old number
equals the stored one and the new one has length 10 (only the length is
tested: a new number of ten letters is accepted); on success a read of the
mobile number returns the new one, exactly one entry "Mobile number updated"
is appended and nothing else changes; with a wrong old number it reports the
mismatch, whatever the new number, and the mobile number is unchanged; with
the right old number and a new one whose length is not 10 it reports the
invalid format. -/
theorem updateMobile_contract (now old_mobile new_mobile : String) (a : ATM) :
    ((updateMobile now old_mobile new_mobile a).ret = true ↔
      old_mobile = a.mobile_no_ ∧ new_mobile.length = 10) ∧
    ((updateMobile now old_mobile new_mobile a).ret = true →
      getMobileNo (updateMobile now old_mobile new_mobile a).atm = new_mobile ∧
      (updateMobile now old_mobile new_mobile a).atm.transaction_history_ =
        a.transaction_history_ ++ ["[" ++ now ++ "] " ++ "Mobile number updated"] ∧
      (updateMobile now old_mobile new_mobile a).atm.balance_ = a.balance_ ∧
      (updateMobile now old_mobile new_mobile a).atm.is_locked_ = a.is_locked_ ∧
      (updateMobile now old_mobile new_mobile a).atm.pin_attempts_ = a.pin_attempts_) ∧
    (reportsMobileMismatch (updateMobile now old_mobile new_mobile a) ↔
      old_mobile ≠ a.mobile_no_) ∧
    (old_mobile ≠ a.mobile_no_ →
      getMobileNo (updateMobile now old_mobile new_mobile a).atm = a.mobile_no_) ∧
    (reportsInvalidMobileFormat (updateMobile now old_mobile new_mobile a) ↔
      old_mobile = a.mobile_no_ ∧ new_mobile.length ≠ 10) ∧
    (updateMobile now a.mobile_no_ "abcdefghij" a).ret = true := by
  refine ⟨?_, ?_, ?_, ?_, ?_, ?_⟩
  · unfold updateMobile
    split_ifs with h1 h2
    · simp; intro h; exact absurd h h1
    · simp; intro _; exact h2
    · simp; exact ⟨not_not.mp h1, not_not.mp h2⟩
  · intro h
    unfold updateMobile at h ⊢
    split_ifs at h ⊢
    exact ⟨rfl, rfl, rfl, rfl, rfl⟩
  · unfold reportsMobileMismatch updateMobile
    split_ifs with h1 h2
    · simp; exact h1
    · simp; exact not_not.mp h1
    · simp; exact not_not.mp h1
  · intro h
    unfold updateMobile
    rw [if_pos h]
    rfl
  · unfold reportsInvalidMobileFormat updateMobile
    split_ifs with h1 h2
    · simp; intro h; exact absurd h h1
    · simp; exact ⟨not_not.mp h1, h2⟩
    · simp; intro _; exact not_not.mp h2
  · unfold updateMobile
    rw [if_neg (not_not.mpr rfl), if_neg (by decide)]

theorem updateMobile_contract_witness :
    (getMobileNo (updateMobile "t" "9370054900" "0123456789" ATMSystem.new).atm
        = "0123456789" ∧
      (updateMobile "t" "9370054900" "0123456789" ATMSystem.new).atm.transaction_history_ =
        ATMSystem.new.transaction_history_ ++ ["[" ++ "t" ++ "] " ++ "Mobile number updated"] ∧
      (updateMobile "t" "9370054900" "0123456789" ATMSystem.new).atm.balance_ = 50000 ∧
      (updateMobile "t" "9370054900" "0123456789" ATMSystem.new).atm.is_locked_ = false ∧
      (updateMobile "t" "9370054900" "0123456789" ATMSystem.new).atm.pin_attempts_ = 0) ∧
    getMobileNo (updateMobile "t" "1111111111" "123" ATMSystem.new).atm = "9370054900" :=
  ⟨(updateMobile_contract "t" "9370054900" "0123456789" ATMSystem.new).2.1 (by decide),
   (updateMobile_contract "t" "1111111111" "123" ATMSystem.new).2.2.2.1 (by decide)⟩

/-! ## Scenario and ledger text -/

theorem fixed2_1000 : fixed2 1000 = "1000.00" := by decide

theorem depositCash_pos (now : String) (amount : ℚ) (a : ATM) (h : 0 < amount) :
    (depositCash now amount a).ret = true ∧
    (depositCash now amount a).atm =
      { a with
        balance_ := doubleAdd a.balance_ amount
        transaction_history_ :=
          a.transaction_history_ ++ ["[" ++ now ++ "] " ++ ("Deposited ₹" ++ fixed2 amount)] } := by
  unfold depositCash
  rw [if_neg (not_le.mpr h)]
  exact ⟨rfl, rfl⟩

theorem withdrawCash_ok (now : String) (amount : ℚ) (a : ATM) (h1 : 0 < amount)
    (h2 : amount ≤ a.balance_) (h3 : amount ≤ MAX_WITHDRAWAL) :
    (withdrawCash now amount a).ret = true ∧
    (withdrawCash now amount a).atm =
      { a with
        balance_ := doubleSub a.balance_ amount
        transaction_history_ :=
          a.transaction_history_ ++ ["[" ++ now ++ "] " ++ ("Withdrew ₹" ++ fixed2 amount)] } := by
  unfold withdrawCash
  rw [if_neg (not_le.mpr h1), if_neg (not_lt.mpr h2), if_neg (not_lt.mpr h3)]
  exact ⟨rfl, rfl⟩

theorem withdrawCash_over_limit (now : String) (amount : ℚ) (a : ATM) (h1 : 0 < amount)
    (h2 : amount ≤ a.balance_) (h3 : MAX_WITHDRAWAL < amount) :
    reportsLimitExceeded (withdrawCash now amount a) ∧ (withdrawCash now amount a).atm = a := by
  unfold reportsLimitExceeded withdrawCash
  rw [if_neg (not_le.mpr h1), if_neg (not_lt.mpr h2), if_pos h3]
  exact ⟨⟨rfl, rfl⟩, rfl⟩

/-- C13. End-to-end scenario on the account that `ATMSystem` constructs
(balance 50000, empty ledger): `depositCash(1000)` succeeds, the balance is
51000 and the ledger has exactly one entry, the deposit of 1000.00; then
`withdrawCash(15000)` succeeds, the balance is 36000 and the ledger has
exactly two entries; then `withdrawCash(25000)` fails reporting the exceeded
limit, the balance is still 36000 and the ledger still has two entries. -/
theorem end_to_end_scenario (t1 t2 t3 : String) :
    ATMSystem.new.balance_ = 50000 ∧ ATMSystem.new.transaction_history_ = [] ∧
    (depositCash t1 1000 ATMSystem.new).ret = true ∧
    (depositCash t1 1000 ATMSystem.new).atm.balance_ = 51000 ∧
    (depositCash t1 1000 ATMSystem.new).atm.transaction_history_ =
      ["[" ++ t1 ++ "] " ++ "Deposited ₹1000.00"] ∧
    (withdrawCash t2 15000 (depositCash t1 1000 ATMSystem.new).atm).ret = true ∧
    (withdrawCash t2 15000 (depositCash t1 1000 ATMSystem.new).atm).atm.balance_ = 36000 ∧
    (withdrawCash t2 15000
      (depositCash t1 1000 ATMSystem.new).atm).atm.transaction_history_.length = 2 ∧
    reportsLimitExceeded (withdrawCash t3 25000
      (withdrawCash t2 15000 (depositCash t1 1000 ATMSystem.new).atm).atm) ∧
    (withdrawCash t3 25000
      (withdrawCash t2 15000 (depositCash t1 1000 ATMSystem.new).atm).atm).atm.balance_
        = 36000 ∧
    (withdrawCash t3 25000
      (withdrawCash t2 15000
        (depositCash t1 1000 ATMSystem.new).atm).atm).atm.transaction_history_.length = 2 := by
  obtain ⟨d1, d2⟩ := depositCash_pos t1 1000 ATMSystem.new (by norm_num)
  have b1 : (depositCash t1 1000 ATMSystem.new).atm.balance_ = 51000 := by
    rw [d2]; show doubleAdd 50000 1000 = 51000; decide
  have l1 : (depositCash t1 1000 ATMSystem.new).atm.transaction_history_ =
      ["[" ++ t1 ++ "] " ++ "Deposited ₹1000.00"] := by
    rw [d2]; show [] ++ ["[" ++ t1 ++ "] " ++ ("Deposited ₹" ++ fixed2 1000)] = _
    rw [fixed2_1000]; rfl
  obtain ⟨w1, w2⟩ := withdrawCash_ok t2 15000 (depositCash t1 1000 ATMSystem.new).atm
    (by norm_num) (by rw [b1]; norm_num) (by unfold MAX_WITHDRAWAL; norm_num)
  have b2 : (withdrawCash t2 15000 (depositCash t1 1000 ATMSystem.new).atm).atm.balance_
      = 36000 := by
    rw [w2]; show doubleSub (depositCash t1 1000 ATMSystem.new).atm.balance_ 15000 = 36000
    rw [b1]; decide
  have l2 : (withdrawCash t2 15000
      (depositCash t1 1000 ATMSystem.new).atm).atm.transaction_history_.length = 2 := by
    rw [w2]
    show ((depositCash t1 1000 ATMSystem.new).atm.transaction_history_ ++ [_]).length = 2
    rw [l1]; rfl
  obtain ⟨x1, x2⟩ := withdrawCash_over_limit t3 25000
    (withdrawCash t2 15000 (depositCash t1 1000 ATMSystem.new).atm).atm
    (by norm_num) (by rw [b2]; norm_num) (by unfold MAX_WITHDRAWAL; norm_num)
  refine ⟨rfl, rfl, d1, b1, l1, w1, b2, l2, x1, ?_, ?_⟩
  · rw [x2]; exact b2
  · rw [x2]; exact l2

theorem authenticate_history_cases (now : String) (account_in pin_in : Option Int)
    (a : ATM) :
    (authenticate now account_in pin_in a).atm.transaction_history_ =
      a.transaction_history_ ∨
    (authenticate now account_in pin_in a).atm.transaction_history_ =
      a.transaction_history_ ++ ["[" ++ now ++ "] " ++ "Account locked"] := by
  rcases authenticate_cases now account_in pin_in a with ⟨_, h, _⟩ | ⟨_, h⟩ | ⟨_, h, _⟩
  · rw [h]; exact Or.inl rfl
  · rw [h]; exact Or.inl rfl
  · rw [h]
    rcases incrementPinAttempts_cases now a with ⟨_, e⟩ | ⟨_, e⟩
    · rw [e]; exact Or.inl rfl
    · rw [e]; exact Or.inr rfl

/-- C14, as the code has it. With the timestamp `now` as an input, every entry
appended to the ledger is "[" ++ now ++ "] " ++ description, where the
description is "Withdrew ₹" followed by the amount with two decimals for a
withdrawal, "Deposited ₹" followed by the amount with two decimals for a
deposit (for `depositCash(1000)` it is "Deposited ₹1000.00"), "Mobile number
updated" for a mobile update and "Account locked" for a lock event, explicit
or raised by `authenticate`; a call that fails appends nothing. -/
theorem ledger_entry_format (now : String) (amount : ℚ) (old_mobile new_mobile : String)
    (account_in pin_in : Option Int) (a : ATM) :
    ((withdrawCash now amount a).ret = true →
      (withdrawCash now amount a).atm.transaction_history_ =
        a.transaction_history_ ++ ["[" ++ now ++ "] " ++ ("Withdrew ₹" ++ fixed2 amount)]) ∧
    ((depositCash now amount a).ret = true →
      (depositCash now amount a).atm.transaction_history_ =
        a.transaction_history_ ++ ["[" ++ now ++ "] " ++ ("Deposited ₹" ++ fixed2 amount)]) ∧
    ((updateMobile now old_mobile new_mobile a).ret = true →
      (updateMobile now old_mobile new_mobile a).atm.transaction_history_ =
        a.transaction_history_ ++ ["[" ++ now ++ "] " ++ "Mobile number updated"]) ∧
    ((lockAccount now a).atm.transaction_history_ =
        a.transaction_history_ ++ ["[" ++ now ++ "] " ++ "Account locked"]) ∧
    ((authenticate now account_in pin_in a).atm.transaction_history_ =
        a.transaction_history_ ∨
      (authenticate now account_in pin_in a).atm.transaction_history_ =
        a.transaction_history_ ++ ["[" ++ now ++ "] " ++ "Account locked"]) ∧
    ((withdrawCash now amount a).ret = false →
      (withdrawCash now amount a).atm.transaction_history_ = a.transaction_history_) ∧
    ((depositCash now amount a).ret = false →
      (depositCash now amount a).atm.transaction_history_ = a.transaction_history_) ∧
    ((updateMobile now old_mobile new_mobile a).ret = false →
      (updateMobile now old_mobile new_mobile a).atm.transaction_history_ =
        a.transaction_history_) ∧
    ((depositCash now 1000 a).atm.transaction_history_ =
        a.transaction_history_ ++ ["[" ++ now ++ "] " ++ "Deposited ₹1000.00"]) := by
  refine ⟨?_, ?_, ?_, rfl, authenticate_history_cases now account_in pin_in a,
    ?_, ?_, ?_, ?_⟩
  · intro h
    unfold withdrawCash at h ⊢
    split_ifs at h ⊢
    rfl
  · intro h
    unfold depositCash at h ⊢
    split_ifs at h ⊢
    rfl
  · intro h
    unfold updateMobile at h ⊢
    split_ifs at h ⊢
    rfl
  · intro h
    rw [withdrawCash_fail_atm now amount a h]
  · intro h
    rw [depositCash_fail_atm now amount a h]
  · intro h
    rw [updateMobile_fail_atm now old_mobile new_mobile a h]
  · rw [(depositCash_pos now 1000 a (by norm_num)).2]
    show a.transaction_history_ ++ ["[" ++ now ++ "] " ++ ("Deposited ₹" ++ fixed2 1000)] = _
    rw [fixed2_1000]
    rfl

theorem ledger_entry_format_witness :
    (withdrawCash "t" 15000 ATMSystem.new).atm.transaction_history_ =
      ATMSystem.new.transaction_history_ ++
        ["[" ++ "t" ++ "] " ++ ("Withdrew ₹" ++ fixed2 15000)] ∧
    (updateMobile "t" "9370054900" "0123456789" ATMSystem.new).atm.transaction_history_ =
      ATMSystem.new.transaction_history_ ++ ["[" ++ "t" ++ "] " ++ "Mobile number updated"] ∧
    (withdrawCash "t" 25000 ATMSystem.new).atm.transaction_history_ =
      ATMSystem.new.transaction_history_ :=
  have h := ledger_entry_format "t" 15000 "9370054900" "0123456789" none none ATMSystem.new
  ⟨h.1 (by decide), h.2.2.1 (by decide),
   (ledger_entry_format "t" 25000 "" "" none none ATMSystem.new).2.2.2.2.2.1 (by decide)⟩

/-- C14 as stated fails: the entry that `depositCash(1000)` appends is
"[ts] Deposited ₹1000.00", with the currency sign, not "[ts] Deposited
1000.00"; likewise `withdrawCash(15000)` appends "[ts] Withdrew ₹15000.00". -/
theorem ledger_entry_format_counterexample :
    (depositCash "2024-01-01 10:00:00" 1000 ATMSystem.new).atm.transaction_history_ =
      ["[2024-01-01 10:00:00] Deposited ₹1000.00"] ∧
    (depositCash "2024-01-01 10:00:00" 1000 ATMSystem.new).atm.transaction_history_ ≠
      ["[" ++ "2024-01-01 10:00:00" ++ "] " ++ "Deposited 1000.00"] ∧
    (withdrawCash "2024-01-01 10:00:00" 15000 ATMSystem.new).atm.transaction_history_ =
      ["[2024-01-01 10:00:00] Withdrew ₹15000.00"] ∧
    (withdrawCash "2024-01-01 10:00:00" 15000 ATMSystem.new).atm.transaction_history_ ≠
      ["[" ++ "2024-01-01 10:00:00" ++ "] " ++ "Withdrew 15000.00"] := by
  decide

/-! ## Lock and unlock events -/

/-- C15, as the code has it. Each lock event appends exactly one entry,
"Account locked" with its timestamp: the explicit `lockAccount`, and the
lockout raised by a failed `authenticate` that brings the counter from 2 to 3.
`unlockAccount` appends nothing: the ledger after it is the ledger before it. -/
theorem lock_recorded_unlock_not (now : String) (n p : Int) (a : ATM) :
    ((lockAccount now a).atm.transaction_history_ =
        a.transaction_history_ ++ ["[" ++ now ++ "] " ++ "Account locked"]) ∧
    (a.pin_attempts_ = 2 → ¬(n = a.account_no_ ∧ p = a.pin_) →
      (authenticate now (some n) (some p) a).atm.is_locked_ = true ∧
      (authenticate now (some n) (some p) a).atm.transaction_history_ =
        a.transaction_history_ ++ ["[" ++ now ++ "] " ++ "Account locked"]) ∧
    ((unlockAccount a).atm.transaction_history_ = a.transaction_history_) := by
  refine ⟨rfl, ?_, rfl⟩
  intro h2 hm
  rw [(authenticate_mismatch_third now n p a hm h2).2]
  exact ⟨rfl, rfl⟩

theorem lock_recorded_unlock_not_witness :
    (authenticate "t" (some 987654321) (some 0)
      { ATMSystem.new with pin_attempts_ := 2 }).atm.is_locked_ = true ∧
    (authenticate "t" (some 987654321) (some 0)
      { ATMSystem.new with pin_attempts_ := 2 }).atm.transaction_history_ =
        [] ++ ["[" ++ "t" ++ "] " ++ "Account locked"] :=
  (lock_recorded_unlock_not "t" 987654321 0 { ATMSystem.new with pin_attempts_ := 2 }).2.1
    (by decide) (by decide)

/-- C15 as stated fails: on the account of `ATMSystem` locked by three wrong
PINs the ledger has one entry before `unlockAccount` and the same one entry
after it. -/
theorem lock_recorded_unlock_not_counterexample :
    lockedByThreeFailures.is_locked_ = true ∧
    lockedByThreeFailures.transaction_history_.length = 1 ∧
    (unlockAccount lockedByThreeFailures).atm.is_locked_ = false ∧
    (unlockAccount lockedByThreeFailures).atm.transaction_history_ =
      lockedByThreeFailures.transaction_history_ ∧
    (unlockAccount lockedByThreeFailures).atm.transaction_history_.length ≠
      lockedByThreeFailures.transaction_history_.length + 1 := by
  decide

/-- C16, as the code has it. `lockAccount` has no test for an account that is
already Locked: on such an account it leaves every member but the ledger as it
was and appends one more "Account locked" entry; two calls in a row give the
state of a single call with a second entry appended. -/
theorem lockAccount_again (t1 t2 : String) (a : ATM) :
    (a.is_locked_ = true →
      (lockAccount t1 a).atm =
        { a with
          transaction_history_ :=
            a.transaction_history_ ++ ["[" ++ t1 ++ "] " ++ "Account locked"] }) ∧
    ((lockAccount t2 (lockAccount t1 a).atm).atm =
        { (lockAccount t1 a).atm with
          transaction_history_ :=
            (lockAccount t1 a).atm.transaction_history_ ++
              ["[" ++ t2 ++ "] " ++ "Account locked"] }) ∧
    ((lockAccount t2 (lockAccount t1 a).atm).atm.transaction_history_.length =
        (lockAccount t1 a).atm.transaction_history_.length + 1) := by
  refine ⟨?_, rfl, length_append_one _ _⟩
  intro h
  unfold lockAccount addTransaction
  simp only [← h]

theorem lockAccount_again_witness :
    (lockAccount "t1" lockedByThreeFailures).atm =
      { lockedByThreeFailures with
        transaction_history_ :=
          lockedByThreeFailures.transaction_history_ ++
            ["[" ++ "t1" ++ "] " ++ "Account locked"] } :=
  (lockAccount_again "t1" "t2" lockedByThreeFailures).1 (by decide)

/-- C16 as stated fails: after `lockAccount` on the account of `ATMSystem`, a
second `lockAccount` changes the state: the ledger gets a second "Account
locked" entry. -/
theorem lockAccount_again_counterexample :
    (lockAccount "2024-01-01 10:00:00" ATMSystem.new).atm.is_locked_ = true ∧
    (lockAccount "2024-01-01 10:00:05"
      (lockAccount "2024-01-01 10:00:00" ATMSystem.new).atm).atm ≠
      (lockAccount "2024-01-01 10:00:00" ATMSystem.new).atm ∧
    (lockAccount "2024-01-01 10:00:05"
      (lockAccount "2024-01-01 10:00:00" ATMSystem.new).atm).atm.transaction_history_ =
        ["[2024-01-01 10:00:00] Account locked", "[2024-01-01 10:00:05] Account locked"] ∧
    (lockAccount "2024-01-01 10:00:00"
      (lockAccount "2024-01-01 10:00:00" ATMSystem.new).atm).atm ≠
      (lockAccount "2024-01-01 10:00:00" ATMSystem.new).atm := by
  decide

/-! ## Balance conservation -/

theorem depositCash_step (now : String) (amount : ℚ) (a : ATM) :
    (depositCash now amount a).atm.balance_ =
      (if (depositCash now amount a).ret = true then roundDouble (a.balance_ + amount)
        else a.balance_) ∧
    (depositCash now amount a).atm.transaction_history_.length =
      a.transaction_history_.length +
        (if (depositCash now amount a).ret = true then 1 else 0) := by
  by_cases h : amount ≤ 0
  · have hr : (depositCash now amount a).ret = false := by
      unfold depositCash
      rw [if_pos h]
    rw [depositCash_fail_atm now amount a hr, hr]
    simp
  · obtain ⟨hr, ha⟩ := depositCash_pos now amount a (not_le.mp h)
    rw [ha, hr]
    simp [doubleAdd_eq]

theorem withdrawCash_ret_true (now : String) (amount : ℚ) (a : ATM)
    (h : (withdrawCash now amount a).ret = true) :
    0 < amount ∧ amount ≤ a.balance_ ∧ amount ≤ MAX_WITHDRAWAL := by
  unfold withdrawCash at h
  split_ifs at h with h1 h2 h3
  exact ⟨not_le.mp h1, not_lt.mp h2, not_lt.mp h3⟩

theorem withdrawCash_step (now : String) (amount : ℚ) (a : ATM) :
    (withdrawCash now amount a).atm.balance_ =
      (if (withdrawCash now amount a).ret = true then roundDouble (a.balance_ - amount)
        else a.balance_) ∧
    (withdrawCash now amount a).atm.transaction_history_.length =
      a.transaction_history_.length +
        (if (withdrawCash now amount a).ret = true then 1 else 0) := by
  by_cases hr : (withdrawCash now amount a).ret = true
  · obtain ⟨h1, h2, h3⟩ := withdrawCash_ret_true now amount a hr
    rw [(withdrawCash_ok now amount a h1 h2 h3).2, hr]
    simp [doubleSub_eq]
  · have hf : (withdrawCash now amount a).ret = false := by simpa using hr
    rw [withdrawCash_fail_atm now amount a hf, hf]
    simp

theorem cashRun_length (ops : List CashOp) (a : ATM) :
    (cashRun ops a).transaction_history_.length =
      a.transaction_history_.length + succeededCount ops a := by
  induction ops generalizing a with
  | nil => simp [cashRun, succeededCount]
  | cons op ops ih =>
    cases op with
    | withdraw now amount =>
      simp only [cashRun, CashOp.call, succeededCount]
      rw [ih, (withdrawCash_step now amount a).2]
      ring
    | deposit now amount =>
      simp only [cashRun, CashOp.call, succeededCount]
      rw [ih, (depositCash_step now amount a).2]
      ring

theorem cashRun_balance_exact (ops : List CashOp) (a : ATM) (h : noRounding ops a) :
    (cashRun ops a).balance_ = a.balance_ + depositedTotal ops a - withdrawnTotal ops a := by
  induction ops generalizing a with
  | nil => simp [cashRun, depositedTotal, withdrawnTotal]
  | cons op ops ih =>
    obtain ⟨h1, h2⟩ := h
    cases op with
    | withdraw now amount =>
      have ib := ih (withdrawCash now amount a).atm h2
      simp only [cashRun, CashOp.call, depositedTotal, withdrawnTotal]
      rw [ib, (withdrawCash_step now amount a).1]
      by_cases hr : (withdrawCash now amount a).ret = true
      · have hd : roundDouble (a.balance_ - amount) = a.balance_ - amount := h1 hr
        rw [if_pos hr, if_pos hr, hd]
        ring
      · rw [if_neg hr, if_neg hr]
        ring
    | deposit now amount =>
      have ib := ih (depositCash now amount a).atm h2
      simp only [cashRun, CashOp.call, depositedTotal, withdrawnTotal]
      rw [ib, (depositCash_step now amount a).1]
      by_cases hr : (depositCash now amount a).ret = true
      · have hd : roundDouble (a.balance_ + amount) = a.balance_ + amount := h1 hr
        rw [if_pos hr, if_pos hr, hd]
        ring
      · rw [if_neg hr, if_neg hr]
        ring

/-- C18, as the code has it. After any finite sequence of `withdrawCash` and
`depositCash` calls the ledger has grown by exactly the number of calls that
succeeded. Each call that succeeds leaves the exact result rounded to the
nearest `double`; when no call of the sequence rounds, the final balance
equals the initial balance plus the amounts of the deposits that succeeded
minus the amounts of the withdrawals that succeeded. -/
theorem balance_conservation (ops : List CashOp) (a : ATM) :
    ((cashRun ops a).transaction_history_.length =
      a.transaction_history_.length + succeededCount ops a) ∧
    (∀ (now : String) (amount : ℚ),
      (depositCash now amount a).atm.balance_ =
        (if (depositCash now amount a).ret = true then roundDouble (a.balance_ + amount)
          else a.balance_) ∧
      (withdrawCash now amount a).atm.balance_ =
        (if (withdrawCash now amount a).ret = true then roundDouble (a.balance_ - amount)
          else a.balance_)) ∧
    (noRounding ops a →
      (cashRun ops a).balance_ =
        a.balance_ + depositedTotal ops a - withdrawnTotal ops a) :=
  ⟨cashRun_length ops a,
   fun now amount => ⟨(depositCash_step now amount a).1, (withdrawCash_step now amount a).1⟩,
   cashRun_balance_exact ops a⟩

theorem balance_conservation_witness :
    (cashRun [.deposit "t1" 1000, .withdraw "t2" 15000, .withdraw "t3" 25000]
      ATMSystem.new).balance_ =
      ATMSystem.new.balance_ +
        depositedTotal [.deposit "t1" 1000, .withdraw "t2" 15000, .withdraw "t3" 25000]
          ATMSystem.new -
        withdrawnTotal [.deposit "t1" 1000, .withdraw "t2" 15000, .withdraw "t3" 25000]
          ATMSystem.new :=
  (balance_conservation [.deposit "t1" 1000, .withdraw "t2" 15000, .withdraw "t3" 25000]
    ATMSystem.new).2.2
    ⟨fun _ => by
        show isDouble ((50000 : ℚ) + 1000)
        rw [show (50000 : ℚ) + 1000 = 51000 by norm_num]
        decide,
     fun _ => by
        show isDouble ((depositCash "t1" 1000 ATMSystem.new).atm.balance_ - 15000)
        rw [show (depositCash "t1" 1000 ATMSystem.new).atm.balance_ = 51000 by decide,
          show (51000 : ℚ) - 15000 = 36000 by norm_num]
        decide,
     fun h => absurd h (by decide), trivial⟩

/-- C18 as stated fails: on the account of `ATMSystem` (balance 50000) the
calls deposit `tenth` (the `double` read for 0.1), withdraw 20000, withdraw
20000, withdraw 10000 succeed and leave the balance 13743895347 / 2 ^ 37 =
0.0999999999985..., so that the fifth call, withdraw `tenth`, is rejected; the
deposits that succeeded sum to `tenth`, the withdrawals that succeeded to
50000, and the final balance is not 50000 + `tenth` - 50000. -/
theorem balance_conservation_counterexample :
    (cashRun roundingCalls ATMSystem.new).balance_ = mkRat 13743895347 137438953472 ∧
    succeededCount roundingCalls ATMSystem.new = 4 ∧
    depositedTotal roundingCalls ATMSystem.new = tenth ∧
    withdrawnTotal roundingCalls ATMSystem.new = 50000 ∧
    (cashRun roundingCalls ATMSystem.new).balance_ ≠
      ATMSystem.new.balance_ + depositedTotal roundingCalls ATMSystem.new -
        withdrawnTotal roundingCalls ATMSystem.new := by
  have hb : (cashRun roundingCalls ATMSystem.new).balance_ =
      mkRat 13743895347 137438953472 := by decide
  have r1 : (depositCash "2024-01-01 10:00:00" tenth ATMSystem.new).ret = true := by decide
  have r2 : (withdrawCash "2024-01-01 10:00:05" 20000
      (depositCash "2024-01-01 10:00:00" tenth ATMSystem.new).atm).ret = true := by decide
  have r3 : (withdrawCash "2024-01-01 10:00:10" 20000
      (withdrawCash "2024-01-01 10:00:05" 20000
        (depositCash "2024-01-01 10:00:00" tenth ATMSystem.new).atm).atm).ret = true := by
    decide
  have r4 : (withdrawCash "2024-01-01 10:00:15" 10000
      (withdrawCash "2024-01-01 10:00:10" 20000
        (withdrawCash "2024-01-01 10:00:05" 20000
          (depositCash "2024-01-01 10:00:00" tenth ATMSystem.new).atm).atm).atm).ret = true := by
    decide
  have r5 : (withdrawCash "2024-01-01 10:00:20" tenth
      (withdrawCash "2024-01-01 10:00:15" 10000
        (withdrawCash "2024-01-01 10:00:10" 20000
          (withdrawCash "2024-01-01 10:00:05" 20000
            (depositCash "2024-01-01 10:00:00" tenth
              ATMSystem.new).atm).atm).atm).atm).ret = false := by
    decide
  have hd : depositedTotal roundingCalls ATMSystem.new = tenth := by
    simp only [roundingCalls, depositedTotal, r1, if_true]
    norm_num
  have hw : withdrawnTotal roundingCalls ATMSystem.new = 50000 := by
    simp only [roundingCalls, withdrawnTotal, r2, r3, r4, r5, if_true]
    norm_num
  refine ⟨hb, by decide, hd, hw, ?_⟩
  rw [hb, hd, hw]
  show mkRat 13743895347 137438953472 ≠ (50000 : ℚ) + tenth - 50000
  rw [show (50000 : ℚ) + tenth - 50000 = tenth by ring]
  decide

/-! ## Frame of the operations -/

theorem identity_frame (op : Op) (a : ATM) :
    (op.apply a).account_no_ = a.account_no_ ∧ (op.apply a).name_ = a.name_ ∧
    (op.apply a).pin_ = a.pin_ := by
  cases op with
  | updateMobile now old_mobile new_mobile =>
    simp only [Op.apply]
    unfold updateMobile
    split_ifs <;> exact ⟨rfl, rfl, rfl⟩
  | withdrawCash now amount =>
    simp only [Op.apply]
    unfold withdrawCash
    split_ifs <;> exact ⟨rfl, rfl, rfl⟩
  | depositCash now amount =>
    simp only [Op.apply]
    unfold depositCash
    split_ifs <;> exact ⟨rfl, rfl, rfl⟩
  | lockAccount now => exact ⟨rfl, rfl, rfl⟩
  | unlockAccount => exact ⟨rfl, rfl, rfl⟩
  | incrementPinAttempts now =>
    simp only [Op.apply]
    rcases incrementPinAttempts_cases now a with ⟨_, e⟩ | ⟨_, e⟩ <;>
      (rw [e]; exact ⟨rfl, rfl, rfl⟩)
  | resetPinAttempts => exact ⟨rfl, rfl, rfl⟩
  | authenticate now account_in pin_in =>
    simp only [Op.apply]
    rcases authenticate_cases now account_in pin_in a with ⟨_, h, _⟩ | ⟨_, h⟩ | ⟨_, h, _⟩
    · rw [h]; exact ⟨rfl, rfl, rfl⟩
    · rw [h]; exact ⟨rfl, rfl, rfl⟩
    · rw [h]
      rcases incrementPinAttempts_cases now a with ⟨_, e⟩ | ⟨_, e⟩ <;>
        (rw [e]; exact ⟨rfl, rfl, rfl⟩)

theorem locked_stays (op : Op) (a : ATM) (hop : op ≠ .unlockAccount)
    (hl : a.is_locked_ = true) : (op.apply a).is_locked_ = true := by
  cases op with
  | updateMobile now old_mobile new_mobile =>
    simp only [Op.apply]
    rw [(updateMobile_lock_frame now old_mobile new_mobile a).1]; exact hl
  | withdrawCash now amount =>
    simp only [Op.apply]
    rw [(withdrawCash_lock_frame now amount a).1]; exact hl
  | depositCash now amount =>
    simp only [Op.apply]
    rw [(depositCash_lock_frame now amount a).1]; exact hl
  | lockAccount now => rfl
  | unlockAccount => exact absurd rfl hop
  | incrementPinAttempts now =>
    simp only [Op.apply]
    rcases incrementPinAttempts_cases now a with ⟨_, e⟩ | ⟨_, e⟩
    · rw [e]; exact hl
    · rw [e]
  | resetPinAttempts => exact hl
  | authenticate now account_in pin_in =>
    simp only [Op.apply]
    rcases authenticate_cases now account_in pin_in a with ⟨_, h, _⟩ | ⟨_, h⟩ | ⟨_, h, _⟩
    · rw [h]; exact hl
    · rw [h]; exact hl
    · rw [h]
      rcases incrementPinAttempts_cases now a with ⟨_, e⟩ | ⟨_, e⟩
      · rw [e]; exact hl
      · rw [e]

/-- C19. The lock is cleared only by `unlockAccount`: on a Locked account
every other operation (`withdrawCash`, `depositCash`, `updateMobile`,
`lockAccount`, `incrementPinAttempts`, `resetPinAttempts`, and also
`authenticate`), with any arguments, leaves the account Locked, while
`unlockAccount` clears the lock; and no operation, `unlockAccount` included,
changes the account number, the owner name or the PIN. -/
theorem lock_cleared_only_by_unlock (op : Op) (a : ATM) :
    (op ≠ .unlockAccount → a.is_locked_ = true → (op.apply a).is_locked_ = true) ∧
    ((Op.unlockAccount.apply a).is_locked_ = false) ∧
    ((op.apply a).account_no_ = a.account_no_ ∧ (op.apply a).name_ = a.name_ ∧
      (op.apply a).pin_ = a.pin_) :=
  ⟨locked_stays op a, rfl, identity_frame op a⟩

theorem lock_cleared_only_by_unlock_witness :
    ((Op.withdrawCash "t" 100).apply lockedByThreeFailures).is_locked_ = true ∧
    ((Op.resetPinAttempts).apply lockedByThreeFailures).is_locked_ = true :=
  ⟨(lock_cleared_only_by_unlock (.withdrawCash "t" 100) lockedByThreeFailures).1
      (by decide) (by decide),
   (lock_cleared_only_by_unlock .resetPinAttempts lockedByThreeFailures).1
      (by decide) (by decide)⟩

/-! ## The menu loop and the run loop -/

theorem handleMainMenu_locked (inputs : List MenuInput) (a : ATM)
    (hl : a.is_locked_ = true) : handleMainMenu inputs a = ⟨true, [], a⟩ := by
  cases inputs with
  | nil =>
    unfold handleMainMenu isLocked
    rw [if_pos hl]
  | cons i rest =>
    unfold handleMainMenu isLocked
    rw [if_pos hl]

theorem handleMainMenu_trace (inputs : List MenuInput) (a : ATM) :
    ∀ e ∈ (handleMainMenu inputs a).trace,
      e.before.is_locked_ = false ∧ e.call ≠ .unlockAccount := by
  induction inputs generalizing a with
  | nil =>
    intro e he
    unfold handleMainMenu at he
    split_ifs at he <;> simp at he
  | cons i rest ih =>
    intro e he
    by_cases hl : isLocked a = true
    · unfold handleMainMenu at he
      rw [if_pos hl] at he
      simp at he
    · have ha : a.is_locked_ = false := by simpa [isLocked] using hl
      unfold handleMainMenu at he
      rw [if_neg hl] at he
      split at he
      · exact ih _ e he
      · split_ifs at he
        · simp only [MenuResult.after, List.mem_cons] at he
          rcases he with rfl | he
          · exact ⟨ha, by simp⟩
          · exact ih _ e he
        · split at he
          · simp only [MenuResult.after, List.mem_cons] at he
            rcases he with rfl | he
            · exact ⟨ha, by simp⟩
            · exact ih _ e he
          · exact ih _ e he
        · split at he
          · simp only [MenuResult.after, List.mem_cons] at he
            rcases he with rfl | he
            · exact ⟨ha, by simp⟩
            · exact ih _ e he
          · exact ih _ e he
        · simp only [MenuResult.after, List.mem_cons] at he
          rcases he with rfl | he
          · exact ⟨ha, by simp⟩
          · exact ih _ e he
        · simp only [MenuResult.after, List.mem_cons] at he
          rcases he with rfl | he
          · exact ⟨ha, by simp⟩
          · exact ih _ e he
        · simp only [MenuResult.after, List.mem_cons] at he
          rcases he with rfl | he
          · exact ⟨ha, by simp⟩
          · exact ih _ e he
        · simp only [List.mem_singleton] at he
          rw [he]
          exact ⟨ha, by simp⟩
        · simp at he
        · exact ih _ e he

theorem run_cons (s : Session) (rest : List Session) (user : ATM) :
    run (s :: rest) user =
      if (authenticate s.now s.account_in s.pin_in user).ret = false then
        if isLocked (authenticate s.now s.account_in s.pin_in user).atm = true then
          if s.retry = 'y' ∨ s.retry = 'Y' then
            (run rest
              (unlockAccount (authenticate s.now s.account_in s.pin_in user).atm).atm).after
              [⟨.authenticate (authenticate s.now s.account_in s.pin_in user).ret, user⟩,
               ⟨.waitForLockout LOCKOUT_SECONDS,
                 (authenticate s.now s.account_in s.pin_in user).atm⟩,
               ⟨.unlockAccount, (authenticate s.now s.account_in s.pin_in user).atm⟩]
          else
            ⟨true, [⟨.authenticate (authenticate s.now s.account_in s.pin_in user).ret, user⟩],
              (authenticate s.now s.account_in s.pin_in user).atm⟩
        else
          (run rest (authenticate s.now s.account_in s.pin_in user).atm).after
            [⟨.authenticate (authenticate s.now s.account_in s.pin_in user).ret, user⟩]
      else
        if (handleMainMenu s.menu
            (authenticate s.now s.account_in s.pin_in user).atm).returned = true then
          if s.continue_session ≠ 'y' ∧ s.continue_session ≠ 'Y' then
            ⟨true, ⟨.authenticate (authenticate s.now s.account_in s.pin_in user).ret, user⟩ ::
                (handleMainMenu s.menu (authenticate s.now s.account_in s.pin_in user).atm).trace,
              (handleMainMenu s.menu (authenticate s.now s.account_in s.pin_in user).atm).atm⟩
          else
            (run rest
              (handleMainMenu s.menu (authenticate s.now s.account_in s.pin_in user).atm).atm).after
              (⟨.authenticate (authenticate s.now s.account_in s.pin_in user).ret, user⟩ ::
                (handleMainMenu s.menu (authenticate s.now s.account_in s.pin_in user).atm).trace)
        else
          ⟨false, ⟨.authenticate (authenticate s.now s.account_in s.pin_in user).ret, user⟩ ::
              (handleMainMenu s.menu (authenticate s.now s.account_in s.pin_in user).atm).trace,
            (handleMainMenu s.menu (authenticate s.now s.account_in s.pin_in user).atm).atm⟩ :=
  rfl

theorem run_cons_cases (s : Session) (rest : List Session) (a : ATM) :
    (∃ L, (∀ x ∈ L, x.call ≠ .unlockAccount ∧
            (x.call.isOperation = true → x.before.is_locked_ = false)) ∧
        (run (s :: rest) a).trace = L ++ []) ∨
    (∃ L b, (∀ x ∈ L, x.call ≠ .unlockAccount ∧
            (x.call.isOperation = true → x.before.is_locked_ = false)) ∧
        (run (s :: rest) a).trace = L ++ (run rest b).trace) ∨
    (∃ f w b, f.call = .authenticate false ∧ w.call = .waitForLockout 30 ∧
        w.before = b ∧ b.is_locked_ = true ∧
        (run (s :: rest) a).trace =
          [f, w] ++ (⟨.unlockAccount, b⟩ :: (run rest (unlockAccount b).atm).trace)) := by
  have hauth : ∀ (ret : Bool) (x : Event), x ∈ [(⟨.authenticate ret, a⟩ : Event)] →
      x.call ≠ .unlockAccount ∧
        (x.call.isOperation = true → x.before.is_locked_ = false) := by
    intro ret x hx
    simp only [List.mem_singleton] at hx
    rw [hx]
    exact ⟨by simp, by simp [Call.isOperation]⟩
  have hmenu : ∀ (ret : Bool) (m : List MenuInput) (b : ATM) (x : Event),
      x ∈ (⟨.authenticate ret, a⟩ : Event) :: (handleMainMenu m b).trace →
      x.call ≠ .unlockAccount ∧
        (x.call.isOperation = true → x.before.is_locked_ = false) := by
    intro ret m b x hx
    simp only [List.mem_cons] at hx
    rcases hx with hx | hx
    · rw [hx]
      exact ⟨by simp, by simp [Call.isOperation]⟩
    · exact ⟨(handleMainMenu_trace m b x hx).2, fun _ => (handleMainMenu_trace m b x hx).1⟩
  rw [run_cons]
  split_ifs with h1 h2 h3 h4 h5
  · right; right
    refine ⟨⟨.authenticate false, a⟩,
      ⟨.waitForLockout LOCKOUT_SECONDS, (authenticate s.now s.account_in s.pin_in a).atm⟩,
      (authenticate s.now s.account_in s.pin_in a).atm, rfl, rfl, rfl, h2, ?_⟩
    rw [h1]
    rfl
  · left
    exact ⟨_, hauth _, (List.append_nil _).symm⟩
  · right; left
    exact ⟨_, _, hauth _, rfl⟩
  · left
    exact ⟨_, hmenu _ _ _, (List.append_nil _).symm⟩
  · right; left
    exact ⟨_, _, hmenu _ _ _, rfl⟩
  · left
    exact ⟨_, hmenu _ _ _, (List.append_nil _).symm⟩

theorem split_after_quiet (L R pre post : List Event) (e : Event)
    (h : L ++ R = pre ++ e :: post) (hL : ∀ x ∈ L, x.call ≠ .unlockAccount)
    (hu : e.call = .unlockAccount) : ∃ pre2, pre = L ++ pre2 ∧ R = pre2 ++ e :: post := by
  induction L generalizing pre with
  | nil => exact ⟨pre, rfl, h⟩
  | cons x L ih =>
    cases pre with
    | nil =>
      simp only [List.cons_append, List.nil_append, List.cons.injEq] at h
      exact absurd (h.1 ▸ hu) (hL x (List.mem_cons_self _ _))
    | cons y pre =>
      simp only [List.cons_append, List.cons.injEq] at h
      obtain ⟨pre2, h1, h2⟩ := ih pre h.2 (fun z hz => hL z (List.mem_cons_of_mem _ hz))
      exact ⟨pre2, by rw [h.1, h1]; rfl, h2⟩

theorem run_operations_active (sessions : List Session) (a : ATM) :
    ∀ e ∈ (run sessions a).trace, e.call.isOperation = true → e.before.is_locked_ = false := by
  induction sessions generalizing a with
  | nil =>
    intro e he
    simp [run] at he
  | cons s rest ih =>
    intro e he hop
    rcases run_cons_cases s rest a with ⟨L, hL, ht⟩ | ⟨L, b, hL, ht⟩ | ⟨f, w, b, hf, hw, _, _, ht⟩
    · rw [ht, List.append_nil] at he
      exact (hL e he).2 hop
    · rw [ht, List.mem_append] at he
      rcases he with he | he
      · exact (hL e he).2 hop
      · exact ih b e he hop
    · rw [ht] at he
      simp only [List.cons_append, List.nil_append, List.mem_cons] at he
      rcases he with he | he | he | he
      · rw [he, hf] at hop; simp [Call.isOperation] at hop
      · rw [he, hw] at hop; simp [Call.isOperation] at hop
      · rw [he] at hop; simp [Call.isOperation] at hop
      · exact ih _ e he hop

/-- C12. A Locked account performs no operation whatever the menu input: on
a Locked account `handleMainMenu` returns at once for every input list, with
no call made (in particular no `withdrawCash`, `depositCash`, `updateMobile`
or `lockAccount`) and the account unchanged; in every run of the menu loop,
from any state, every call it makes, and so every `withdrawCash`,
`depositCash` and `updateMobile`, is made on an account that is not Locked at
that moment; and the same holds for these three calls in every run of the
loop of `run`. -/
theorem locked_account_no_operation (inputs : List MenuInput) (sessions : List Session)
    (a : ATM) :
    (a.is_locked_ = true → handleMainMenu inputs a = ⟨true, [], a⟩) ∧
    (∀ e ∈ (handleMainMenu inputs a).trace, e.before.is_locked_ = false) ∧
    (∀ e ∈ (run sessions a).trace,
      e.call.isOperation = true → e.before.is_locked_ = false) :=
  ⟨handleMainMenu_locked inputs a,
   fun e he => (handleMainMenu_trace inputs a e he).1,
   run_operations_active sessions a⟩

theorem locked_account_no_operation_witness :
    handleMainMenu [⟨"t1", some 2, some 100, "", ""⟩, ⟨"t2", some 3, some 100, "", ""⟩,
        ⟨"t3", some 5, none, "9370054900", "0123456789"⟩, ⟨"t4", some 7, none, "", ""⟩]
      lockedByThreeFailures = ⟨true, [], lockedByThreeFailures⟩ :=
  (locked_account_no_operation _ [] lockedByThreeFailures).1 (by decide)

/-- C17. Unlock only after the lockout delay: in the trace of every run of
the loop of `run`, over any input, each `unlockAccount` call is immediately
preceded by a `waitForLockout` of `LOCKOUT_SECONDS` = 30 seconds, which is
itself immediately preceded by an `authenticate` that returned `false`, and
the account is Locked when the wait starts and when `unlockAccount` is
called. -/
theorem unlock_only_after_wait (sessions : List Session) (a : ATM)
    (pre post : List Event) (e : Event)
    (ht : (run sessions a).trace = pre ++ e :: post) (hu : e.call = .unlockAccount) :
    ∃ pre1 f w, pre = pre1 ++ [f, w] ∧ f.call = .authenticate false ∧
      w.call = .waitForLockout 30 ∧ LOCKOUT_SECONDS = 30 ∧
      w.before = e.before ∧ e.before.is_locked_ = true := by
  induction sessions generalizing a pre with
  | nil =>
    simp [run] at ht
  | cons s rest ih =>
    rcases run_cons_cases s rest a with ⟨L, hL, hr⟩ | ⟨L, b, hL, hr⟩ |
      ⟨f, w, b, hf, hw, hwb, hb, hr⟩
    · rw [hr] at ht
      obtain ⟨pre2, _, h2⟩ := split_after_quiet L [] pre post e ht (fun x hx => (hL x hx).1) hu
      exact absurd h2 (by simp)
    · rw [hr] at ht
      obtain ⟨pre2, h1, h2⟩ := split_after_quiet L _ pre post e ht
        (fun x hx => (hL x hx).1) hu
      obtain ⟨pre1, f, w, h3, h4⟩ := ih b pre2 h2
      exact ⟨L ++ pre1, f, w, by rw [h1, h3, List.append_assoc], h4⟩
    · rw [hr] at ht
      obtain ⟨pre2, h1, h2⟩ := split_after_quiet [f, w] _ pre post e ht
        (by
          intro x hx
          simp only [List.mem_cons, List.mem_singleton, List.not_mem_nil, or_false] at hx
          rcases hx with hx | hx
          · rw [hx, hf]; simp
          · rw [hx, hw]; simp) hu
      cases pre2 with
      | nil =>
        simp only [List.nil_append, List.cons.injEq] at h2
        refine ⟨[], f, w, by rw [h1]; rfl, hf, hw, rfl, ?_, ?_⟩
        · rw [← h2.1]; exact hwb
        · rw [← h2.1]; exact hb
      | cons y pre3 =>
        simp only [List.cons_append, List.cons.injEq] at h2
        obtain ⟨pre1, f1, w1, h3, h4⟩ := ih _ pre3 h2.2
        refine ⟨[f, w] ++ y :: pre1, f1, w1, ?_, h4⟩
        rw [h1, h3]
        simp

theorem unlock_only_after_wait_witness :
    ∃ pre1 f w, (run lockoutSessions ATMSystem.new).trace.take 4 = pre1 ++ [f, w] ∧
      f.call = .authenticate false ∧ w.call = .waitForLockout 30 ∧ LOCKOUT_SECONDS = 30 ∧
      w.before = lockedByThreeFailures ∧ lockedByThreeFailures.is_locked_ = true :=
  unlock_only_after_wait lockoutSessions ATMSystem.new
    ((run lockoutSessions ATMSystem.new).trace.take 4) []
    ⟨.unlockAccount, lockedByThreeFailures⟩ (by decide) rfl

end ATMCore
